import Mathlib

/-!
# Z16 instruction set simulator (`z16sim.c`)

A shallow embedding of the simulator: the architectural state (64 KiB byte
memory, eight 16-bit registers, 16-bit program counter), the disassembler,
the executor `executeInstruction` and the driver loop of `main`, followed by
theorems about them.

Conventions of the embedding.

* C values of type `uint8_t`, `uint16_t` are natural numbers; a value of
  unsigned type promoted to `int` keeps its value, so expressions that cannot
  be negative are computed in `Nat`. Expressions with signed operands are
  computed in `Int`. Every assignment to a `uint16_t` / `int16_t` / `int8_t`
  object is an explicit reduction modulo `2^16` / `2^8` (`toU16`, `toI16`,
  `toI8`). `int` is taken to be 32 bits wide with two's-complement
  conversions and an arithmetic `>>` on negative values; no `int` expression
  of the program leaves the 32-bit range.
* `memory` is an array of `MEM_SIZE` bytes. An index expression of type
  `uint16_t` is below `MEM_SIZE` by its type; the index expressions of type
  `int` (`addr + 1` in `sw` / `lw`, `pc + 1` in the fetch) are checked against
  `MEM_SIZE`, and an access outside the array is the outcome `outOfBounds`.
* The unbounded `while` loops take a fuel argument; running out of fuel is
  the outcome `outOfFuel`.
* `stdout` and `stderr` are lists of bytes held in the state.
-/

namespace Z16

/-! ## Machine integers -/

/-- Conversion of an integer value to `uint16_t`. -/
def toU16 (x : Int) : Nat := (x % 65536).toNat

/-- Conversion of an integer value to `int16_t` (two's complement). -/
def toI16 (x : Int) : Int :=
  if x % 65536 < 32768 then x % 65536 else x % 65536 - 65536

/-- Conversion of an integer value to `int8_t` (two's complement). -/
def toI8 (x : Int) : Int :=
  if x % 256 < 128 then x % 256 else x % 256 - 256

/-! ## Architectural state -/

/-- Size of the simulated memory: `#define MEM_SIZE 65536`. -/
def MEM_SIZE : Nat := 65536

/-- Instruction cap of the driver: `#define MAX_INSTRUCTIONS 100000`. -/
def MAX_INSTRUCTIONS : Nat := 100000

/-- The globals `memory`, `regs`, `pc`, together with the two output streams. -/
structure State where
  /-- Contents of `unsigned char memory[MEM_SIZE]`, by index. -/
  memory : Nat → Nat
  /-- Contents of `uint16_t regs[8]`, by index. -/
  regs : Nat → Nat
  /-- Value of `uint16_t pc`. -/
  pc : Nat
  /-- Bytes written to standard output so far. -/
  stdout : List Nat
  /-- Bytes written to standard error so far. -/
  stderr : List Nat

/-- Every cell holds a value of its C type. -/
def State.wf (s : State) : Prop :=
  (∀ i, s.memory i < 256) ∧ (∀ i, s.regs i < 65536) ∧ s.pc < 65536

/-- Assignment `regs[i] = v`. -/
def State.setReg (s : State) (i v : Nat) : State :=
  { s with regs := fun j => if j = i then v else s.regs j }

/-- Assignment `memory[a] = v`. -/
def State.setMem (s : State) (a v : Nat) : State :=
  { s with memory := fun j => if j = a then v else s.memory j }

/-- Assignment `pc = v`. -/
def State.setPc (s : State) (v : Nat) : State :=
  { s with pc := v }

/-- Bytes of an ASCII text. -/
def bytesOf (text : String) : List Nat := text.data.map Char.toNat

/-- Effect of `printf` / `putchar` of the given bytes on standard output. -/
def State.print (s : State) (bytes : List Nat) : State :=
  { s with stdout := s.stdout ++ bytes }

/-- Effect of `fprintf(stderr, ...)` of the given bytes. -/
def State.eprint (s : State) (bytes : List Nat) : State :=
  { s with stderr := s.stderr ++ bytes }

/-- Result of running a piece of the program. -/
inductive Outcome (α : Type) where
  /-- Normal completion with a value. -/
  | ok (a : α) : Outcome α
  /-- An access to `memory` at an index outside `0 .. MEM_SIZE - 1`. -/
  | outOfBounds : Outcome α
  /-- A loop was still running when the fuel was used up. -/
  | outOfFuel : Outcome α

/-! ## Text formatting -/

/-- Register ABI names: `const char *regNames[8]`. -/
def regNames (i : Nat) : String :=
  ["t0", "ra", "sp", "s0", "s1", "t1", "a0", "a1"].getD i ""

/-- Conversion `%d` of an `int`. -/
def fmtD (x : Int) : String := toString x

/-- Upper-case hexadecimal digits of a number, most significant first. -/
def hexDigits (n : Nat) : List Char := (Nat.toDigits 16 n).map Char.toUpper

/-- Conversion `%X` of an unsigned value. -/
def fmtX (n : Nat) : String := ⟨hexDigits n⟩

/-- Conversion `%04X` of an unsigned value: zero padded to at least four digits. -/
def fmt04X (n : Nat) : String :=
  ⟨List.replicate (4 - (hexDigits n).length) '0' ++ hexDigits n⟩

/-- Contents of `buf` after `snprintf(buf, bufSize, ...)` produced `text`:
at most `bufSize - 1` characters are stored (the call in `main` passes
`bufSize = 128`; for `bufSize = 0` the C function stores nothing and the
model gives the empty text). -/
def snprintf (bufSize : Nat) (text : String) : String :=
  ⟨text.data.take (bufSize - 1)⟩

/-- The text `text` begins with the characters of `pre`. -/
def beginsWith (pre text : String) : Prop :=
  text.data.take pre.length = pre.data

instance (pre text : String) : Decidable (beginsWith pre text) := by
  unfold beginsWith
  infer_instance

/-! ## Readings of a 16-bit pattern -/

/-- Two's-complement value of a 16-bit pattern `v < 2^16`. -/
def signed16 (v : Nat) : Int := if v < 32768 then (v : Int) else (v : Int) - 65536

/-! ## Immediates -/

/-- The I-type immediate, written identically in `disassemble` and
`executeInstruction`:
`int16_t simm = (imm7 & 0x40) ? (imm7 | 0xFF80) : imm7;`. -/
def signExtend7 (imm7 : Nat) : Int :=
  if imm7 &&& 0x40 ≠ 0 then toI16 (imm7 ||| 0xFF80 : Nat) else toI16 imm7

/-- The B-type byte offset, written identically in `disassemble` and
`executeInstruction`: `int16_t offset = offset_hi << 1;
if (offset & 0x10) offset |= 0xFFF0;`. -/
def branchOffset (inst : Nat) : Int :=
  let offset_hi := (inst >>> 12) &&& 0xF
  let offset0 : Int := toI16 (offset_hi <<< 1 : Nat)
  if toU16 offset0 &&& 0x10 ≠ 0 then toI16 (toU16 offset0 ||| 0xFFF0 : Nat) else offset0

/-- The J-type byte offset, written identically in `disassemble` and
`executeInstruction`: `int16_t offset = ((offset_hi << 3) | offset_lo) << 1;
if (offset & 0x400) offset |= 0xF800;`. -/
def jumpOffset (inst : Nat) : Int :=
  let offset_hi := (inst >>> 9) &&& 0x3F
  let offset_lo := (inst >>> 3) &&& 0x7
  let offset0 : Int := toI16 ((((offset_hi <<< 3) ||| offset_lo) <<< 1 : Nat))
  if toU16 offset0 &&& 0x400 ≠ 0 then toI16 (toU16 offset0 ||| 0xF800 : Nat) else offset0

/-! ## Disassembly -/

/-- Text written to `buf` by `disassemble(inst, pc, buf, bufSize)`. -/
def disassemble (inst pc bufSize : Nat) : String :=
  let opcode := inst &&& 0x7
  match opcode with
  | 0x0 =>
    let funct4 := (inst >>> 12) &&& 0xF
    let rs2 := (inst >>> 9) &&& 0x7
    let rd_rs1 := (inst >>> 6) &&& 0x7
    let funct3 := (inst >>> 3) &&& 0x7
    if funct3 = 0x0 then
      if funct4 = 0x0 then
        snprintf bufSize ("add " ++ regNames rd_rs1 ++ ", " ++ regNames rs2)
      else if funct4 = 0x1 then
        snprintf bufSize ("sub " ++ regNames rd_rs1 ++ ", " ++ regNames rs2)
      else if funct4 = 0x4 then
        snprintf bufSize ("jr " ++ regNames rs2)
      else if funct4 = 0x8 then
        snprintf bufSize ("jalr " ++ regNames rs2)
      else
        snprintf bufSize "Unknown R-type"
    else if funct3 = 0x1 then
      snprintf bufSize ("slt " ++ regNames rd_rs1 ++ ", " ++ regNames rs2)
    else if funct3 = 0x2 then
      snprintf bufSize ("sltu " ++ regNames rd_rs1 ++ ", " ++ regNames rs2)
    else if funct3 = 0x3 then
      if funct4 = 0x2 then
        snprintf bufSize ("sll " ++ regNames rd_rs1 ++ ", " ++ regNames rs2)
      else if funct4 = 0x4 then
        snprintf bufSize ("srl " ++ regNames rd_rs1 ++ ", " ++ regNames rs2)
      else if funct4 = 0x8 then
        snprintf bufSize ("sra " ++ regNames rd_rs1 ++ ", " ++ regNames rs2)
      else
        snprintf bufSize "Unknown shift"
    else if funct3 = 0x4 then
      snprintf bufSize ("or " ++ regNames rd_rs1 ++ ", " ++ regNames rs2)
    else if funct3 = 0x5 then
      snprintf bufSize ("and " ++ regNames rd_rs1 ++ ", " ++ regNames rs2)
    else if funct3 = 0x6 then
      snprintf bufSize ("xor " ++ regNames rd_rs1 ++ ", " ++ regNames rs2)
    else if funct3 = 0x7 then
      snprintf bufSize ("mv " ++ regNames rd_rs1 ++ ", " ++ regNames rs2)
    else
      snprintf bufSize "Unknown R-type"
  | 0x1 =>
    let imm7 := (inst >>> 9) &&& 0x7F
    let rd_rs1 := (inst >>> 6) &&& 0x7
    let funct3 := (inst >>> 3) &&& 0x7
    let simm : Int := signExtend7 imm7
    if funct3 = 0x0 then
      snprintf bufSize ("addi " ++ regNames rd_rs1 ++ ", " ++ fmtD simm)
    else if funct3 = 0x1 then
      snprintf bufSize ("slti " ++ regNames rd_rs1 ++ ", " ++ fmtD simm)
    else if funct3 = 0x2 then
      snprintf bufSize ("sltui " ++ regNames rd_rs1 ++ ", " ++ fmtD simm)
    else if funct3 = 0x3 then
      let shift_type := (imm7 >>> 4) &&& 0x7
      let shamt := imm7 &&& 0xF
      if shift_type = 0x1 then
        snprintf bufSize ("slli " ++ regNames rd_rs1 ++ ", " ++ fmtD shamt)
      else if shift_type = 0x2 then
        snprintf bufSize ("srli " ++ regNames rd_rs1 ++ ", " ++ fmtD shamt)
      else if shift_type = 0x4 then
        snprintf bufSize ("srai " ++ regNames rd_rs1 ++ ", " ++ fmtD shamt)
      else
        snprintf bufSize "Unknown shift immediate"
    else if funct3 = 0x4 then
      snprintf bufSize ("ori " ++ regNames rd_rs1 ++ ", " ++ fmtD simm)
    else if funct3 = 0x5 then
      snprintf bufSize ("andi " ++ regNames rd_rs1 ++ ", " ++ fmtD simm)
    else if funct3 = 0x6 then
      snprintf bufSize ("xori " ++ regNames rd_rs1 ++ ", " ++ fmtD simm)
    else if funct3 = 0x7 then
      snprintf bufSize ("li " ++ regNames rd_rs1 ++ ", " ++ fmtD simm)
    else
      snprintf bufSize "Unknown I-type"
  | 0x2 =>
    let rs2 := (inst >>> 9) &&& 0x7
    let rs1 := (inst >>> 6) &&& 0x7
    let funct3 := (inst >>> 3) &&& 0x7
    let offset := branchOffset inst
    let target := toU16 (pc + offset)
    if funct3 = 0x0 then
      snprintf bufSize
        ("beq " ++ regNames rs1 ++ ", " ++ regNames rs2 ++ ", 0x" ++ fmt04X target)
    else if funct3 = 0x1 then
      snprintf bufSize
        ("bne " ++ regNames rs1 ++ ", " ++ regNames rs2 ++ ", 0x" ++ fmt04X target)
    else if funct3 = 0x2 then
      snprintf bufSize ("bz " ++ regNames rs1 ++ ", 0x" ++ fmt04X target)
    else if funct3 = 0x3 then
      snprintf bufSize ("bnz " ++ regNames rs1 ++ ", 0x" ++ fmt04X target)
    else if funct3 = 0x4 then
      snprintf bufSize
        ("blt " ++ regNames rs1 ++ ", " ++ regNames rs2 ++ ", 0x" ++ fmt04X target)
    else if funct3 = 0x5 then
      snprintf bufSize
        ("bge " ++ regNames rs1 ++ ", " ++ regNames rs2 ++ ", 0x" ++ fmt04X target)
    else if funct3 = 0x6 then
      snprintf bufSize
        ("bltu " ++ regNames rs1 ++ ", " ++ regNames rs2 ++ ", 0x" ++ fmt04X target)
    else if funct3 = 0x7 then
      snprintf bufSize
        ("bgeu " ++ regNames rs1 ++ ", " ++ regNames rs2 ++ ", 0x" ++ fmt04X target)
    else
      snprintf bufSize "Unknown B-type"
  | 0x3 =>
    let imm := (inst >>> 12) &&& 0xF
    let rs2 := (inst >>> 9) &&& 0x7
    let rs1 := (inst >>> 6) &&& 0x7
    let funct3 := (inst >>> 3) &&& 0x7
    if funct3 = 0x0 then
      snprintf bufSize ("sb " ++ regNames rs2 ++ ", " ++ fmtD imm ++ "(" ++ regNames rs1 ++ ")")
    else if funct3 = 0x1 then
      snprintf bufSize ("sw " ++ regNames rs2 ++ ", " ++ fmtD imm ++ "(" ++ regNames rs1 ++ ")")
    else
      snprintf bufSize "Unknown S-type"
  | 0x4 =>
    let imm := (inst >>> 12) &&& 0xF
    let rs2 := (inst >>> 9) &&& 0x7
    let rd := (inst >>> 6) &&& 0x7
    let funct3 := (inst >>> 3) &&& 0x7
    if funct3 = 0x0 then
      snprintf bufSize ("lb " ++ regNames rd ++ ", " ++ fmtD imm ++ "(" ++ regNames rs2 ++ ")")
    else if funct3 = 0x1 then
      snprintf bufSize ("lw " ++ regNames rd ++ ", " ++ fmtD imm ++ "(" ++ regNames rs2 ++ ")")
    else if funct3 = 0x4 then
      snprintf bufSize ("lbu " ++ regNames rd ++ ", " ++ fmtD imm ++ "(" ++ regNames rs2 ++ ")")
    else
      snprintf bufSize "Unknown L-type"
  | 0x5 =>
    let f := (inst >>> 15) &&& 0x1
    let rd := (inst >>> 6) &&& 0x7
    let offset := jumpOffset inst
    let target := toU16 (pc + offset)
    if f = 0 then
      snprintf bufSize ("j 0x" ++ fmt04X target)
    else
      snprintf bufSize ("jal " ++ regNames rd ++ ", 0x" ++ fmt04X target)
  | 0x6 =>
    let f := (inst >>> 15) &&& 0x1
    let imm_hi := (inst >>> 10) &&& 0x3F
    let rd := (inst >>> 6) &&& 0x7
    let imm_lo := (inst >>> 3) &&& 0x7
    let imm := toU16 ((((imm_hi <<< 6) ||| imm_lo) <<< 4 : Nat))
    if f = 0 then
      snprintf bufSize ("lui " ++ regNames rd ++ ", 0x" ++ fmt04X imm)
    else
      snprintf bufSize ("auipc " ++ regNames rd ++ ", 0x" ++ fmt04X imm)
  | 0x7 =>
    let service := (inst >>> 6) &&& 0x3FF
    snprintf bufSize ("ecall " ++ fmtD service)
  | _ =>
    snprintf bufSize ("Unknown opcode 0x" ++ fmtX opcode)

/-! ## Instruction execution -/

/-- How control leaves the `switch` of `executeInstruction`. -/
inductive Flow where
  /-- A `break`, with the value of the flag `pcUpdated`. -/
  | brk (s : State) (pcUpdated : Bool) : Flow
  /-- A `return code;` from inside the `switch`. -/
  | ret (code : Int) (s : State) : Flow

/-- Branch condition `take_branch` of the B-type case, from `funct3` and the
values of `regs[rs1]`, `regs[rs2]`. -/
def takeBranch (funct3 a b : Nat) : Bool :=
  if funct3 = 0x0 then decide (a = b)
  else if funct3 = 0x1 then decide (a ≠ b)
  else if funct3 = 0x2 then decide (a = 0)
  else if funct3 = 0x3 then decide (a ≠ 0)
  else if funct3 = 0x4 then decide (toI16 a < toI16 b)
  else if funct3 = 0x5 then decide (toI16 a ≥ toI16 b)
  else if funct3 = 0x6 then decide (a < b)
  else if funct3 = 0x7 then decide (a ≥ b)
  else false

/-- The loop of `ecall 5`:
`while (memory[addr] != 0) { putchar(memory[addr]); addr++; }` with
`uint16_t addr`. Returns the bytes written, appended to `acc`. The fuel bounds
the number of evaluations of the loop condition. -/
def printString (memory : Nat → Nat) : Nat → Nat → List Nat → Outcome (List Nat)
  | 0, _, _ => .outOfFuel
  | fuel + 1, addr, acc =>
    if memory addr ≠ 0 then
      printString memory fuel (toU16 (addr + 1)) (acc ++ [memory addr])
    else
      .ok acc

/-- Case `0x0` of the `switch` of `executeInstruction`: R-type. -/
def execR (inst : Nat) (s : State) : Outcome Flow :=
  let funct4 := (inst >>> 12) &&& 0xF
  let rs2 := (inst >>> 9) &&& 0x7
  let rd_rs1 := (inst >>> 6) &&& 0x7
  let funct3 := (inst >>> 3) &&& 0x7
  if funct3 = 0x0 then
    if funct4 = 0x0 then
      .ok (.brk (s.setReg rd_rs1 (toU16 (s.regs rd_rs1 + s.regs rs2))) false)
    else if funct4 = 0x1 then
      .ok (.brk (s.setReg rd_rs1 (toU16 (s.regs rd_rs1 - s.regs rs2))) false)
    else if funct4 = 0x4 then
      .ok (.brk (s.setPc (s.regs rs2)) true)
    else if funct4 = 0x8 then
      let next_pc := toU16 (s.pc + 2)
      .ok (.brk ((s.setPc (s.regs rs2)).setReg rd_rs1 next_pc) true)
    else
      .ok (.brk s false)
  else if funct3 = 0x1 then
    .ok (.brk (s.setReg rd_rs1 (if toI16 (s.regs rd_rs1) < toI16 (s.regs rs2) then 1 else 0)) false)
  else if funct3 = 0x2 then
    .ok (.brk (s.setReg rd_rs1 (if s.regs rd_rs1 < s.regs rs2 then 1 else 0)) false)
  else if funct3 = 0x3 then
    if funct4 = 0x2 then
      .ok (.brk (s.setReg rd_rs1
        (toU16 (s.regs rd_rs1 <<< (s.regs rs2 &&& 0xF) : Nat))) false)
    else if funct4 = 0x4 then
      .ok (.brk (s.setReg rd_rs1
        (toU16 (s.regs rd_rs1 >>> (s.regs rs2 &&& 0xF) : Nat))) false)
    else if funct4 = 0x8 then
      .ok (.brk (s.setReg rd_rs1
        (toU16 (toI16 (s.regs rd_rs1) >>> (s.regs rs2 &&& 0xF)))) false)
    else
      .ok (.brk s false)
  else if funct3 = 0x4 then
    .ok (.brk (s.setReg rd_rs1 (toU16 (s.regs rd_rs1 ||| s.regs rs2 : Nat))) false)
  else if funct3 = 0x5 then
    .ok (.brk (s.setReg rd_rs1 (toU16 (s.regs rd_rs1 &&& s.regs rs2 : Nat))) false)
  else if funct3 = 0x6 then
    .ok (.brk (s.setReg rd_rs1 (toU16 (s.regs rd_rs1 ^^^ s.regs rs2 : Nat))) false)
  else if funct3 = 0x7 then
    .ok (.brk (s.setReg rd_rs1 (s.regs rs2)) false)
  else
    .ok (.brk s false)

/-- Case `0x1` of the `switch` of `executeInstruction`: I-type. The bitwise
operators with the possibly negative `simm` act on the low 16 bits, which is
all the assignment to `regs[rd_rs1]` keeps. -/
def execI (inst : Nat) (s : State) : Outcome Flow :=
  let imm7 := (inst >>> 9) &&& 0x7F
  let rd_rs1 := (inst >>> 6) &&& 0x7
  let funct3 := (inst >>> 3) &&& 0x7
  let simm : Int := signExtend7 imm7
  if funct3 = 0x0 then
    .ok (.brk (s.setReg rd_rs1 (toU16 (s.regs rd_rs1 + simm))) false)
  else if funct3 = 0x1 then
    .ok (.brk (s.setReg rd_rs1 (if toI16 (s.regs rd_rs1) < simm then 1 else 0)) false)
  else if funct3 = 0x2 then
    .ok (.brk (s.setReg rd_rs1 (if s.regs rd_rs1 < toU16 simm then 1 else 0)) false)
  else if funct3 = 0x3 then
    let shift_type := (imm7 >>> 4) &&& 0x7
    let shamt := imm7 &&& 0xF
    if shift_type = 0x1 then
      .ok (.brk (s.setReg rd_rs1 (toU16 (s.regs rd_rs1 <<< shamt : Nat))) false)
    else if shift_type = 0x2 then
      .ok (.brk (s.setReg rd_rs1 (toU16 (s.regs rd_rs1 >>> shamt : Nat))) false)
    else if shift_type = 0x4 then
      .ok (.brk (s.setReg rd_rs1 (toU16 (toI16 (s.regs rd_rs1) >>> shamt))) false)
    else
      .ok (.brk s false)
  else if funct3 = 0x4 then
    .ok (.brk (s.setReg rd_rs1 (toU16 (s.regs rd_rs1 ||| toU16 simm : Nat))) false)
  else if funct3 = 0x5 then
    .ok (.brk (s.setReg rd_rs1 (toU16 (s.regs rd_rs1 &&& toU16 simm : Nat))) false)
  else if funct3 = 0x6 then
    .ok (.brk (s.setReg rd_rs1 (toU16 (s.regs rd_rs1 ^^^ toU16 simm : Nat))) false)
  else if funct3 = 0x7 then
    .ok (.brk (s.setReg rd_rs1 (toU16 simm)) false)
  else
    .ok (.brk s false)

/-- Case `0x2` of the `switch` of `executeInstruction`: B-type. -/
def execB (inst : Nat) (s : State) : Outcome Flow :=
  let rs2 := (inst >>> 9) &&& 0x7
  let rs1 := (inst >>> 6) &&& 0x7
  let funct3 := (inst >>> 3) &&& 0x7
  let offset := branchOffset inst
  let take_branch := takeBranch funct3 (s.regs rs1) (s.regs rs2)
  if take_branch then
    .ok (.brk (s.setPc (toU16 (s.pc + offset))) true)
  else
    .ok (.brk s false)

/-- Case `0x3` of the `switch` of `executeInstruction`: S-type. The index
`addr + 1` of `sw` has type `int` and is not reduced modulo `2^16`. -/
def execS (inst : Nat) (s : State) : Outcome Flow :=
  let imm := (inst >>> 12) &&& 0xF
  let rs2 := (inst >>> 9) &&& 0x7
  let rs1 := (inst >>> 6) &&& 0x7
  let funct3 := (inst >>> 3) &&& 0x7
  let addr := toU16 (s.regs rs1 + imm : Nat)
  if funct3 = 0x0 then
    .ok (.brk (s.setMem addr (s.regs rs2 &&& 0xFF)) false)
  else if funct3 = 0x1 then
    let s1 := s.setMem addr (s.regs rs2 &&& 0xFF)
    if addr + 1 < MEM_SIZE then
      .ok (.brk (s1.setMem (addr + 1) ((s.regs rs2 >>> 8) &&& 0xFF)) false)
    else
      .outOfBounds
  else
    .ok (.brk s false)

/-- Case `0x4` of the `switch` of `executeInstruction`: L-type. The index
`addr + 1` of `lw` has type `int` and is not reduced modulo `2^16`. -/
def execL (inst : Nat) (s : State) : Outcome Flow :=
  let imm := (inst >>> 12) &&& 0xF
  let rs2 := (inst >>> 9) &&& 0x7
  let rd := (inst >>> 6) &&& 0x7
  let funct3 := (inst >>> 3) &&& 0x7
  let addr := toU16 (s.regs rs2 + imm : Nat)
  if funct3 = 0x0 then
    let val : Int := toI8 (s.memory addr)
    .ok (.brk (s.setReg rd (toU16 (toI16 val))) false)
  else if funct3 = 0x1 then
    if addr + 1 < MEM_SIZE then
      .ok (.brk (s.setReg rd (toU16 (s.memory addr ||| (s.memory (addr + 1) <<< 8) : Nat))) false)
    else
      .outOfBounds
  else if funct3 = 0x4 then
    .ok (.brk (s.setReg rd (s.memory addr)) false)
  else
    .ok (.brk s false)

/-- Case `0x5` of the `switch` of `executeInstruction`: J-type. -/
def execJ (inst : Nat) (s : State) : Outcome Flow :=
  let f := (inst >>> 15) &&& 0x1
  let rd := (inst >>> 6) &&& 0x7
  let offset := jumpOffset inst
  let s1 := if f = 1 then s.setReg rd (toU16 (s.pc + 2)) else s
  .ok (.brk (s1.setPc (toU16 (offset + s1.pc))) true)

/-- The U-type immediate of the executor:
`uint16_t imm = ((imm_hi << 3) | imm_lo) << 7` with a 5-bit `imm_hi`. -/
def upperImm (inst : Nat) : Nat :=
  let imm_hi := (inst >>> 10) &&& 0x1F
  let imm_lo := (inst >>> 3) &&& 0x7
  toU16 ((((imm_hi <<< 3) ||| imm_lo) <<< 7 : Nat))

/-- Case `0x6` of the `switch` of `executeInstruction`: U-type. -/
def execU (inst : Nat) (s : State) : Outcome Flow :=
  let f := (inst >>> 15) &&& 0x1
  let rd := (inst >>> 6) &&& 0x7
  let imm := upperImm inst
  if f = 0 then
    .ok (.brk (s.setReg rd imm) false)
  else
    .ok (.brk (s.setReg rd (toU16 (s.pc + imm : Nat))) false)

/-- Case `0x7` of the `switch` of `executeInstruction`: system instruction. -/
def execSys (fuel inst : Nat) (s : State) : Outcome Flow :=
  let service := (inst >>> 6) &&& 0x3FF
  if service = 1 then
    .ok (.brk (s.print (bytesOf (fmtD (toI16 (s.regs 6)) ++ "\n"))) false)
  else if service = 5 then
    let addr := toU16 (s.regs 6)
    match printString s.memory fuel addr [] with
    | .ok bytes => .ok (.brk ((s.print bytes).print (bytesOf "\n")) false)
    | .outOfBounds => .outOfBounds
    | .outOfFuel => .outOfFuel
  else if service = 3 then
    .ok (.ret 0 s)
  else
    .ok (.brk s false)

/-- The statements after the `switch` of `executeInstruction`:
`if (!pcUpdated) pc += 2; return 1;`. -/
def finish : Outcome Flow → Outcome (Int × State)
  | .ok (.brk s pcUpdated) =>
    .ok (1, if pcUpdated then s else s.setPc (toU16 (s.pc + 2)))
  | .ok (.ret code s) => .ok (code, s)
  | .outOfBounds => .outOfBounds
  | .outOfFuel => .outOfFuel

/-- The function `int executeInstruction(uint16_t inst)`: the returned value
and the state afterwards. -/
def executeInstruction (fuel inst : Nat) (s : State) : Outcome (Int × State) :=
  let opcode := inst &&& 0x7
  match opcode with
  | 0x0 => finish (execR inst s)
  | 0x1 => finish (execI inst s)
  | 0x2 => finish (execB inst s)
  | 0x3 => finish (execS inst s)
  | 0x4 => finish (execL inst s)
  | 0x5 => finish (execJ inst s)
  | 0x6 => finish (execU inst s)
  | 0x7 => finish (execSys fuel inst s)
  | _ => finish (.ok (.brk
      (s.print (bytesOf ("Unknown instruction opcode 0x" ++ fmtX opcode ++ "\n"))) false))

/-! ## Driver -/

/-- State at program start: the globals are zero-initialised. -/
def initialState : State :=
  { memory := fun _ => 0, regs := fun _ => 0, pc := 0, stdout := [], stderr := [] }

/-- The function `loadMemoryFromFile` on a file that could be opened, `image`
being the bytes of the file: `fread` stores the first `MEM_SIZE` of them. -/
def loadMemoryFromFile (image : List Nat) (s : State) : State :=
  let n := min image.length MEM_SIZE
  let s1 : State := { s with memory := fun i => if i < n then image.getD i 0 % 256 else s.memory i }
  s1.print (bytesOf ("Loaded " ++ toString n ++ " bytes into memory\n"))

/-- The loop of `printRegisterState`, from index `i` for `k` more registers. -/
def printRegisters (s : State) : Nat → Nat → List Nat
  | 0, _ => []
  | k + 1, i =>
    bytesOf (regNames i ++ " (x" ++ fmtD i ++ "): 0x" ++ fmt04X (s.regs i) ++ " ("
      ++ fmtD (toI16 (s.regs i)) ++ ")\n") ++ printRegisters s k (i + 1)

/-- The function `printRegisterState`. -/
def printRegisterState (s : State) : State :=
  ((s.print (bytesOf "\n--- Final Register State ---\n")).print (printRegisters s 8 0)).print
    (bytesOf ("PC: 0x" ++ fmt04X s.pc ++ "\n---------------------------\n"))

/-- The `while` loop of `main`, started with the given `instruction_count`;
returns the final `instruction_count` and state. The first argument is the
fuel handed to `executeInstruction`, the second bounds the number of
evaluations of the loop condition. -/
def driverLoop (fuel : Nat) : Nat → Nat → State → Outcome (Nat × State)
  | 0, _, _ => .outOfFuel
  | n + 1, instruction_count, s =>
    if s.pc < MEM_SIZE ∧ instruction_count < MAX_INSTRUCTIONS then
      if s.pc + 1 ≥ MEM_SIZE then
        .ok (instruction_count,
          s.eprint (bytesOf ("Reached end of memory at 0x" ++ fmt04X s.pc ++ "\n")))
      else
        let inst := toU16 (s.memory s.pc ||| (s.memory (s.pc + 1) <<< 8) : Nat)
        if inst = 0 then
          .ok (instruction_count,
            s.eprint (bytesOf ("Encountered zero instruction at 0x" ++ fmt04X s.pc ++ "\n")))
        else
          let disasmBuf := disassemble inst s.pc 128
          let s1 := s.print (bytesOf
            ("0x" ++ fmt04X s.pc ++ ": " ++ fmt04X inst ++ " " ++ disasmBuf ++ "\n"))
          match executeInstruction fuel inst s1 with
          | .ok (exec_result, s2) =>
            if exec_result = 0 then
              .ok (instruction_count, s2.print (bytesOf "Simulation terminated by ecall\n"))
            else if exec_result < 0 then
              .ok (instruction_count, s2.eprint (bytesOf
                ("Invalid instruction execution at 0x" ++ fmt04X s2.pc ++ "\n")))
            else
              driverLoop fuel n (instruction_count + 1) s2
          | .outOfBounds => .outOfBounds
          | .outOfFuel => .outOfFuel
    else
      .ok (instruction_count, s)

/-- The function `main` called with one argument naming a readable file whose
bytes are `image`: the exit status and the final state. -/
def main (fuel : Nat) (image : List Nat) : Outcome (Int × State) :=
  let s0 := loadMemoryFromFile image initialState
  let s1 : State := { s0 with regs := fun _ => 0, pc := 0 }
  match driverLoop fuel fuel 0 s1 with
  | .ok (instruction_count, s2) =>
    let s3 :=
      if instruction_count ≥ MAX_INSTRUCTIONS then
        s2.eprint (bytesOf ("Simulation terminated: Exceeded maximum instruction count ("
          ++ fmtD MAX_INSTRUCTIONS ++ ")\n"))
      else s2
    .ok (0, printRegisterState s3)
  | .outOfBounds => .outOfBounds
  | .outOfFuel => .outOfFuel

/-! ## Concrete states used to exercise the theorems -/

/-- The start state after `li a0, 42` (word `0x55B9`) has been executed. -/
def afterLi42 : State :=
  (initialState.setReg 6 42).setPc 2

/-- A state at `pc = 0x0010` in which register `i` holds `0x1000 + i`. -/
def linkState : State :=
  { memory := fun _ => 0, regs := fun i => 0x1000 + i, pc := 0x0010, stdout := [], stderr := [] }

/-- A state in which `t0` (register 0) holds `0xFFFF`, the highest address,
and every other register holds `0xABCD`. -/
def topAddressState : State :=
  { memory := fun _ => 0, regs := fun i => if i = 0 then 0xFFFF else 0xABCD, pc := 0,
    stdout := [], stderr := [] }

/-- A state with `t0 = 0xFFFF` (register 0), `t1 = 0x0001` (register 5) and
all other registers zero. -/
def compareState : State :=
  { memory := fun _ => 0, regs := fun i => if i = 0 then 0xFFFF else if i = 5 then 1 else 0,
    pc := 0, stdout := [], stderr := [] }

/-- The start state moved to `pc = 2`. -/
def atPcTwo : State := initialState.setPc 2

/-- A file of 65536 bytes none of which is zero: `ecall 5` (little-endian
word `0x0147`) at address 0, every other byte `0x01`. -/
def unterminatedImage : List Nat := 0x47 :: List.replicate 65535 0x01

/-- A state holding the bytes `H`, `i`, NUL at addresses `0x100 ..`, with
`a0 = 0x100`. -/
def hiState : State :=
  { memory := fun a => if a = 0x100 then 0x48 else if a = 0x101 then 0x69 else 0,
    regs := fun i => if i = 6 then 0x100 else 0, pc := 0, stdout := [], stderr := [] }

/-- A state whose only non-zero bytes are `A` at address `0xFFFF` and `B` at
address `0`, with `a0 = 0xFFFF`. -/
def wrapState : State :=
  { memory := fun a => if a = 0xFFFF then 0x41 else if a = 0 then 0x42 else 0,
    regs := fun i => if i = 6 then 0xFFFF else 0, pc := 0, stdout := [], stderr := [] }

/-- The state in which the driver loop of `main` starts on the file `image`:
memory loaded, registers and `pc` zeroed. -/
def startState (image : List Nat) : State :=
  { loadMemoryFromFile image initialState with regs := fun _ => 0, pc := 0 }

/-- The image of Scenario A: the words `0xC1F1`, `0x0041`, little-endian. -/
def scenarioA : List Nat := [0xF1, 0xC1, 0x41, 0x00]

/-- The image of Scenario B: `li a0, 42` (word `0x55B9`), `ecall 1` (word
`0x0047`), little-endian. -/
def scenarioB : List Nat := [0xB9, 0x55, 0x47, 0x00]

/-- The image of Scenario F: `j 0` (word `0x0005`), little-endian. -/
def scenarioF : List Nat := [0x05, 0x00]

/-- A state in which every register holds `0xFFF0`. -/
def nearTopState : State :=
  { memory := fun _ => 0, regs := fun _ => 0xFFF0, pc := 0, stdout := [], stderr := [] }

/-- A state with `t0 = 0xFFF0` (register 0) and every other register zero. -/
def negativeState : State :=
  { memory := fun _ => 0, regs := fun i => if i = 0 then 0xFFF0 else 0, pc := 0,
    stdout := [], stderr := [] }

/-- A state holding the bytes `0x80`, `0x12` at addresses `0x100`, `0x101`,
with `a0 = 0x100`. -/
def loadState : State :=
  { memory := fun a => if a = 0x100 then 0x80 else if a = 0x101 then 0x12 else 0,
    regs := fun i => if i = 6 then 0x100 else 0, pc := 0, stdout := [], stderr := [] }

/-- A state with `sp = 0xFFFE` (register 2), `a0 = 0x1234` (register 6) and
every other register zero. -/
def stackTopState : State :=
  { memory := fun _ => 0,
    regs := fun i => if i = 2 then 0xFFFE else if i = 6 then 0x1234 else 0,
    pc := 0, stdout := [], stderr := [] }

/-! ## Basic facts -/

theorem toU16_natCast (n : Nat) : toU16 (n : Int) = n % 65536 := by
  unfold toU16; omega

theorem toU16_lt (x : Int) : toU16 x < 65536 := by
  unfold toU16; omega

theorem toU16_cast (x : Int) : ((toU16 x : Nat) : Int) = x % 65536 := by
  unfold toU16; omega

theorem toU16_pc_add_two (pc : Nat) : toU16 ((pc : Int) + 2) = (pc + 2) % 65536 := by
  unfold toU16; omega

theorem toI16_of_lt (v : Nat) (h : v < 65536) :
    toI16 (v : Int) = if v < 32768 then (v : Int) else (v : Int) - 65536 := by
  unfold toI16
  split_ifs <;> omega

theorem State.setPc_regs (s : State) (v : Nat) : (s.setPc v).regs = s.regs := rfl

theorem State.setPc_memory (s : State) (v : Nat) : (s.setPc v).memory = s.memory := rfl

theorem State.setPc_stdout (s : State) (v : Nat) : (s.setPc v).stdout = s.stdout := rfl

theorem State.setPc_pc (s : State) (v : Nat) : (s.setPc v).pc = v := rfl

theorem opcode_lt (inst : Nat) : inst &&& 0x7 < 8 :=
  Nat.lt_succ_of_le Nat.and_le_right

/-! ### Dispatch on the opcode -/

theorem executeInstruction_R (fuel inst : Nat) (s : State) (h : inst &&& 0x7 = 0) :
    executeInstruction fuel inst s = finish (execR inst s) := by
  unfold executeInstruction; simp only [h]

theorem executeInstruction_I (fuel inst : Nat) (s : State) (h : inst &&& 0x7 = 1) :
    executeInstruction fuel inst s = finish (execI inst s) := by
  unfold executeInstruction; simp only [h]

theorem executeInstruction_B (fuel inst : Nat) (s : State) (h : inst &&& 0x7 = 2) :
    executeInstruction fuel inst s = finish (execB inst s) := by
  unfold executeInstruction; simp only [h]

theorem executeInstruction_S (fuel inst : Nat) (s : State) (h : inst &&& 0x7 = 3) :
    executeInstruction fuel inst s = finish (execS inst s) := by
  unfold executeInstruction; simp only [h]

theorem executeInstruction_L (fuel inst : Nat) (s : State) (h : inst &&& 0x7 = 4) :
    executeInstruction fuel inst s = finish (execL inst s) := by
  unfold executeInstruction; simp only [h]

theorem executeInstruction_J (fuel inst : Nat) (s : State) (h : inst &&& 0x7 = 5) :
    executeInstruction fuel inst s = finish (execJ inst s) := by
  unfold executeInstruction; simp only [h]

theorem executeInstruction_U (fuel inst : Nat) (s : State) (h : inst &&& 0x7 = 6) :
    executeInstruction fuel inst s = finish (execU inst s) := by
  unfold executeInstruction; simp only [h]

theorem executeInstruction_Sys (fuel inst : Nat) (s : State) (h : inst &&& 0x7 = 7) :
    executeInstruction fuel inst s = finish (execSys fuel inst s) := by
  unfold executeInstruction; simp only [h]

/-- The opcode field selects one of the eight cases of the `switch`; the
`default` case is never reached. -/
theorem executeInstruction_cases (fuel inst : Nat) (s : State) :
    (inst &&& 0x7 = 0 ∧ executeInstruction fuel inst s = finish (execR inst s)) ∨
    (inst &&& 0x7 = 1 ∧ executeInstruction fuel inst s = finish (execI inst s)) ∨
    (inst &&& 0x7 = 2 ∧ executeInstruction fuel inst s = finish (execB inst s)) ∨
    (inst &&& 0x7 = 3 ∧ executeInstruction fuel inst s = finish (execS inst s)) ∨
    (inst &&& 0x7 = 4 ∧ executeInstruction fuel inst s = finish (execL inst s)) ∨
    (inst &&& 0x7 = 5 ∧ executeInstruction fuel inst s = finish (execJ inst s)) ∨
    (inst &&& 0x7 = 6 ∧ executeInstruction fuel inst s = finish (execU inst s)) ∨
    (inst &&& 0x7 = 7 ∧ executeInstruction fuel inst s = finish (execSys fuel inst s)) := by
  have hlt := opcode_lt inst
  generalize hop : inst &&& 0x7 = op at hlt
  interval_cases op
  · exact Or.inl ⟨rfl, executeInstruction_R fuel inst s hop⟩
  · exact Or.inr (Or.inl ⟨rfl, executeInstruction_I fuel inst s hop⟩)
  · exact Or.inr (Or.inr (Or.inl ⟨rfl, executeInstruction_B fuel inst s hop⟩))
  · exact Or.inr (Or.inr (Or.inr (Or.inl ⟨rfl, executeInstruction_S fuel inst s hop⟩)))
  · exact Or.inr (Or.inr (Or.inr (Or.inr (Or.inl ⟨rfl, executeInstruction_L fuel inst s hop⟩))))
  · exact Or.inr (Or.inr (Or.inr (Or.inr (Or.inr (Or.inl
      ⟨rfl, executeInstruction_J fuel inst s hop⟩)))))
  · exact Or.inr (Or.inr (Or.inr (Or.inr (Or.inr (Or.inr (Or.inl
      ⟨rfl, executeInstruction_U fuel inst s hop⟩))))))
  · exact Or.inr (Or.inr (Or.inr (Or.inr (Or.inr (Or.inr (Or.inr
      ⟨rfl, executeInstruction_Sys fuel inst s hop⟩))))))

/-- What a result `1` of `finish` says about the way the `switch` was left. -/
theorem finish_ok_one {o : Outcome Flow} {s' : State} (h : finish o = .ok (1, s')) :
    (∃ t, o = .ok (.brk t true) ∧ s' = t) ∨
    (∃ t, o = .ok (.brk t false) ∧ s' = t.setPc (toU16 (t.pc + 2))) ∨
    o = .ok (.ret 1 s') := by
  cases o with
  | ok f =>
    cases f with
    | brk t u =>
      cases u <;> simp [finish] at h <;> simp [h]
    | ret c t =>
      simp [finish] at h
      simp [h]
  | outOfBounds => simp [finish] at h
  | outOfFuel => simp [finish] at h

/-! ### Effect of each case on the program counter -/

theorem execR_pc (inst : Nat) (s t : State) (u : Bool) (h : execR inst s = .ok (.brk t u)) :
    (u = false → t.pc = s.pc) ∧
    (u = true → (inst >>> 3) &&& 0x7 = 0 ∧
      ((inst >>> 12) &&& 0xF = 4 ∨ (inst >>> 12) &&& 0xF = 8)) := by
  unfold execR at h
  simp only at h
  split_ifs at h <;> cases h <;> simp [State.setReg, State.setPc, *]

theorem execR_no_ret (inst : Nat) (s t : State) (c : Int) :
    execR inst s ≠ .ok (.ret c t) := by
  intro h
  unfold execR at h
  simp only at h
  split_ifs at h <;> cases h

theorem execI_pc (inst : Nat) (s t : State) (u : Bool) (h : execI inst s = .ok (.brk t u)) :
    u = false ∧ t.pc = s.pc := by
  unfold execI at h
  simp only at h
  split_ifs at h <;> cases h <;> exact ⟨rfl, rfl⟩

theorem execI_no_ret (inst : Nat) (s t : State) (c : Int) :
    execI inst s ≠ .ok (.ret c t) := by
  intro h
  unfold execI at h
  simp only at h
  split_ifs at h <;> cases h

theorem execB_pc (inst : Nat) (s t : State) (u : Bool) (h : execB inst s = .ok (.brk t u)) :
    (u = false → t.pc = s.pc) ∧
    (u = true → takeBranch ((inst >>> 3) &&& 0x7)
      (s.regs ((inst >>> 6) &&& 0x7)) (s.regs ((inst >>> 9) &&& 0x7)) = true) := by
  unfold execB at h
  simp only at h
  split_ifs at h <;> cases h <;> simp [*]

theorem execB_no_ret (inst : Nat) (s t : State) (c : Int) :
    execB inst s ≠ .ok (.ret c t) := by
  intro h
  unfold execB at h
  simp only at h
  split_ifs at h <;> cases h

theorem execS_pc (inst : Nat) (s t : State) (u : Bool) (h : execS inst s = .ok (.brk t u)) :
    u = false ∧ t.pc = s.pc := by
  unfold execS at h
  simp only at h
  split_ifs at h <;> cases h <;> exact ⟨rfl, rfl⟩

theorem execS_no_ret (inst : Nat) (s t : State) (c : Int) :
    execS inst s ≠ .ok (.ret c t) := by
  intro h
  unfold execS at h
  simp only at h
  split_ifs at h <;> cases h

theorem execL_pc (inst : Nat) (s t : State) (u : Bool) (h : execL inst s = .ok (.brk t u)) :
    u = false ∧ t.pc = s.pc := by
  unfold execL at h
  simp only at h
  split_ifs at h <;> cases h <;> exact ⟨rfl, rfl⟩

theorem execL_no_ret (inst : Nat) (s t : State) (c : Int) :
    execL inst s ≠ .ok (.ret c t) := by
  intro h
  unfold execL at h
  simp only at h
  split_ifs at h <;> cases h

theorem execU_pc (inst : Nat) (s t : State) (u : Bool) (h : execU inst s = .ok (.brk t u)) :
    u = false ∧ t.pc = s.pc := by
  unfold execU at h
  simp only at h
  split_ifs at h <;> cases h <;> exact ⟨rfl, rfl⟩

theorem execU_no_ret (inst : Nat) (s t : State) (c : Int) :
    execU inst s ≠ .ok (.ret c t) := by
  intro h
  unfold execU at h
  simp only at h
  split_ifs at h <;> cases h

theorem execSys_pc (fuel inst : Nat) (s t : State) (u : Bool)
    (h : execSys fuel inst s = .ok (.brk t u)) :
    u = false ∧ t.pc = s.pc ∧ (inst >>> 6) &&& 0x3FF ≠ 3 := by
  unfold execSys at h
  simp only at h
  split_ifs at h with h1 h5 h3
  · cases h
    exact ⟨rfl, rfl, by rw [h1]; decide⟩
  · split at h
    · cases h
      exact ⟨rfl, rfl, by rw [h5]; decide⟩
    · cases h
    · cases h
  · cases h
  · cases h
    exact ⟨rfl, rfl, h3⟩

theorem execSys_ret (fuel inst : Nat) (s t : State) (c : Int)
    (h : execSys fuel inst s = .ok (.ret c t)) :
    c = 0 ∧ t = s ∧ (inst >>> 6) &&& 0x3FF = 3 := by
  unfold execSys at h
  simp only at h
  split_ifs at h
  · cases h
  · split at h <;> cases h
  · cases h; simp [*]
  · cases h

/-! ## C1: the program counter advances by two -/

/-- C1: whenever `executeInstruction` returns 1 on a word that is neither a
taken B-type branch, nor J-type, nor `jr`, nor `jalr`, the program counter
afterwards is the one before plus 2, modulo `2^16`. -/
theorem pc_advances_by_two (fuel inst : Nat) (s s' : State)
    (hret : executeInstruction fuel inst s = .ok (1, s'))
    (hB : ¬ (inst &&& 0x7 = 2 ∧ takeBranch ((inst >>> 3) &&& 0x7)
      (s.regs ((inst >>> 6) &&& 0x7)) (s.regs ((inst >>> 9) &&& 0x7)) = true))
    (hJ : inst &&& 0x7 ≠ 5)
    (hjr : ¬ (inst &&& 0x7 = 0 ∧ (inst >>> 3) &&& 0x7 = 0 ∧
      ((inst >>> 12) &&& 0xF = 4 ∨ (inst >>> 12) &&& 0xF = 8))) :
    s'.pc = (s.pc + 2) % 65536 := by
  rcases executeInstruction_cases fuel inst s with
    ⟨hop, he⟩ | ⟨hop, he⟩ | ⟨hop, he⟩ | ⟨hop, he⟩ | ⟨hop, he⟩ | ⟨hop, he⟩ | ⟨hop, he⟩ | ⟨hop, he⟩
  · rw [he] at hret
    rcases finish_ok_one hret with ⟨t, ho, rfl⟩ | ⟨t, ho, rfl⟩ | ho
    · exact absurd ⟨hop, (execR_pc inst s _ _ ho).2 rfl⟩ hjr
    · show toU16 (t.pc + 2) = _
      rw [(execR_pc inst s _ _ ho).1 rfl, toU16_pc_add_two]
    · exact absurd ho (execR_no_ret inst s s' 1)
  · rw [he] at hret
    rcases finish_ok_one hret with ⟨t, ho, rfl⟩ | ⟨t, ho, rfl⟩ | ho
    · exact absurd (execI_pc inst s _ _ ho).1 (by simp)
    · show toU16 (t.pc + 2) = _
      rw [(execI_pc inst s _ _ ho).2, toU16_pc_add_two]
    · exact absurd ho (execI_no_ret inst s s' 1)
  · rw [he] at hret
    rcases finish_ok_one hret with ⟨t, ho, rfl⟩ | ⟨t, ho, rfl⟩ | ho
    · exact absurd ⟨hop, (execB_pc inst s _ _ ho).2 rfl⟩ hB
    · show toU16 (t.pc + 2) = _
      rw [(execB_pc inst s _ _ ho).1 rfl, toU16_pc_add_two]
    · exact absurd ho (execB_no_ret inst s s' 1)
  · rw [he] at hret
    rcases finish_ok_one hret with ⟨t, ho, rfl⟩ | ⟨t, ho, rfl⟩ | ho
    · exact absurd (execS_pc inst s _ _ ho).1 (by simp)
    · show toU16 (t.pc + 2) = _
      rw [(execS_pc inst s _ _ ho).2, toU16_pc_add_two]
    · exact absurd ho (execS_no_ret inst s s' 1)
  · rw [he] at hret
    rcases finish_ok_one hret with ⟨t, ho, rfl⟩ | ⟨t, ho, rfl⟩ | ho
    · exact absurd (execL_pc inst s _ _ ho).1 (by simp)
    · show toU16 (t.pc + 2) = _
      rw [(execL_pc inst s _ _ ho).2, toU16_pc_add_two]
    · exact absurd ho (execL_no_ret inst s s' 1)
  · exact absurd hop hJ
  · rw [he] at hret
    rcases finish_ok_one hret with ⟨t, ho, rfl⟩ | ⟨t, ho, rfl⟩ | ho
    · exact absurd (execU_pc inst s _ _ ho).1 (by simp)
    · show toU16 (t.pc + 2) = _
      rw [(execU_pc inst s _ _ ho).2, toU16_pc_add_two]
    · exact absurd ho (execU_no_ret inst s s' 1)
  · rw [he] at hret
    rcases finish_ok_one hret with ⟨t, ho, rfl⟩ | ⟨t, ho, rfl⟩ | ho
    · exact absurd (execSys_pc fuel inst s _ _ ho).1 (by simp)
    · show toU16 (t.pc + 2) = _
      rw [(execSys_pc fuel inst s _ _ ho).2.1, toU16_pc_add_two]
    · exact absurd (execSys_ret fuel inst s _ _ ho).1 (by decide)

/-- C1 at `li a0, 42` (word `0x55B9`) executed in the start state. -/
theorem pc_advances_by_two_witness :
    executeInstruction 0 0x55B9 initialState = .ok (1, afterLi42) ∧
    afterLi42.pc = (initialState.pc + 2) % 65536 :=
  ⟨rfl, pc_advances_by_two 0 0x55B9 initialState afterLi42 rfl
    (by decide) (by decide) (by decide)⟩

/-! ## C2: link registers of `jal` and `jalr` -/

/-- C2: `jal` (J-type word with `f = 1`) leaves `pc_before + 2` in `rd` and
`pc_before + offset` in `pc`; `jalr` (R-type word with `funct3 = 0`,
`funct4 = 8`) leaves the old value of `rs2` in `pc` and `pc_before + 2` in
`rd`, also when `rd` and `rs2` are the same register. All sums are modulo
`2^16`. -/
theorem jal_jalr_link (fuel jal jalr : Nat) (s : State)
    (hJ : jal &&& 0x7 = 5) (hf : (jal >>> 15) &&& 0x1 = 1)
    (hR : jalr &&& 0x7 = 0) (hf3 : (jalr >>> 3) &&& 0x7 = 0)
    (hf4 : (jalr >>> 12) &&& 0xF = 8) :
    (∃ s', executeInstruction fuel jal s = .ok (1, s') ∧
      s'.regs ((jal >>> 6) &&& 0x7) = (s.pc + 2) % 65536 ∧
      (s'.pc : Int) = (s.pc + jumpOffset jal) % 65536) ∧
    (∃ s', executeInstruction fuel jalr s = .ok (1, s') ∧
      s'.pc = s.regs ((jalr >>> 9) &&& 0x7) ∧
      s'.regs ((jalr >>> 6) &&& 0x7) = (s.pc + 2) % 65536) := by
  constructor
  · refine ⟨((s.setReg ((jal >>> 6) &&& 0x7) (toU16 (s.pc + 2))).setPc
      (toU16 (jumpOffset jal + s.pc))), ?_, ?_, ?_⟩
    · rw [executeInstruction_J fuel jal s hJ]
      simp only [execJ, hf, if_true, finish]
      rfl
    · simp [State.setReg, State.setPc, toU16_pc_add_two]
    · show ((toU16 (jumpOffset jal + s.pc) : Nat) : Int) = _
      rw [toU16_cast, Int.add_comm]
  · refine ⟨((s.setPc (s.regs ((jalr >>> 9) &&& 0x7))).setReg ((jalr >>> 6) &&& 0x7)
      (toU16 (s.pc + 2))), ?_, ?_, ?_⟩
    · rw [executeInstruction_R fuel jalr s hR]
      simp only [execR, hf3, hf4, if_true, finish]
      rfl
    · rfl
    · simp [State.setReg, State.setPc, toU16_pc_add_two]

/-- C2 at `jal t0, +0x20` (word `0x8405`) and `jalr ra` with `rd = ra`
(word `0x8240`), both executed in `linkState`. -/
theorem jal_jalr_link_witness :
    (∃ s', executeInstruction 0 0x8405 linkState = .ok (1, s') ∧
      s'.regs 0 = 0x0012 ∧ (s'.pc : Int) = 0x0030) ∧
    (∃ s', executeInstruction 0 0x8240 linkState = .ok (1, s') ∧
      s'.pc = 0x1001 ∧ s'.regs 1 = 0x0012) :=
  jal_jalr_link 0 0x8405 0x8240 linkState (by decide) (by decide) (by decide) (by decide)
    (by decide)

/-! ## C3: store followed by load -/

theorem byte_pair_eq (v : Nat) (h : v < 65536) :
    v &&& 0xFF ||| ((v >>> 8) &&& 0xFF) <<< 8 = v := by
  have h1 : v &&& 0xFF = v % 256 := Nat.and_pow_two_sub_one_eq_mod v 8
  have h2 : (v >>> 8) &&& 0xFF = v / 256 % 256 := by
    rw [Nat.shiftRight_eq_div_pow]; exact Nat.and_pow_two_sub_one_eq_mod _ 8
  have h3 : v % 256 < 2 ^ 8 := by omega
  rw [h1, h2, Nat.lor_comm, Nat.shiftLeft_eq, Nat.mul_comm,
    ← Nat.mul_add_lt_is_or h3]
  omega

/-- Effect of `sb`. -/
theorem executeInstruction_sb (fuel inst : Nat) (s : State)
    (hS : inst &&& 0x7 = 3) (hS3 : (inst >>> 3) &&& 0x7 = 0) :
    executeInstruction fuel inst s = .ok (1,
      (s.setMem (toU16 (s.regs ((inst >>> 6) &&& 0x7) + ((inst >>> 12) &&& 0xF) : Nat))
        (s.regs ((inst >>> 9) &&& 0x7) &&& 0xFF)).setPc (toU16 (s.pc + 2))) := by
  rw [executeInstruction_S fuel inst s hS]
  simp only [execS, hS3, if_true, finish]
  rfl

/-- Effect of `sw` when `addr + 1` is inside `memory`. -/
theorem executeInstruction_sw (fuel inst : Nat) (s : State)
    (hS : inst &&& 0x7 = 3) (hS3 : (inst >>> 3) &&& 0x7 = 1)
    (hin : toU16 (s.regs ((inst >>> 6) &&& 0x7) + ((inst >>> 12) &&& 0xF) : Nat) + 1
      < MEM_SIZE) :
    executeInstruction fuel inst s = .ok (1,
      ((s.setMem (toU16 (s.regs ((inst >>> 6) &&& 0x7) + ((inst >>> 12) &&& 0xF) : Nat))
        (s.regs ((inst >>> 9) &&& 0x7) &&& 0xFF)).setMem
          (toU16 (s.regs ((inst >>> 6) &&& 0x7) + ((inst >>> 12) &&& 0xF) : Nat) + 1)
          ((s.regs ((inst >>> 9) &&& 0x7) >>> 8) &&& 0xFF)).setPc (toU16 (s.pc + 2))) := by
  rw [executeInstruction_S fuel inst s hS]
  simp only [execS, hS3, show ¬ ((1 : Nat) = 0) by decide, if_false, if_true, hin, finish]
  rfl

/-- Effect of `lbu`. -/
theorem executeInstruction_lbu (fuel inst : Nat) (s : State)
    (hL : inst &&& 0x7 = 4) (hL3 : (inst >>> 3) &&& 0x7 = 4) :
    executeInstruction fuel inst s = .ok (1,
      (s.setReg ((inst >>> 6) &&& 0x7)
        (s.memory (toU16 (s.regs ((inst >>> 9) &&& 0x7) + ((inst >>> 12) &&& 0xF) : Nat)))).setPc
        (toU16 (s.pc + 2))) := by
  rw [executeInstruction_L fuel inst s hL]
  simp only [execL, hL3, show ¬ ((4 : Nat) = 0) by decide, show ¬ ((4 : Nat) = 1) by decide,
    if_false, if_true, finish]
  rfl

/-- Effect of `lw` when `addr + 1` is inside `memory`. -/
theorem executeInstruction_lw (fuel inst : Nat) (s : State)
    (hL : inst &&& 0x7 = 4) (hL3 : (inst >>> 3) &&& 0x7 = 1)
    (hin : toU16 (s.regs ((inst >>> 9) &&& 0x7) + ((inst >>> 12) &&& 0xF) : Nat) + 1
      < MEM_SIZE) :
    executeInstruction fuel inst s = .ok (1,
      (s.setReg ((inst >>> 6) &&& 0x7)
        (toU16 (s.memory (toU16 (s.regs ((inst >>> 9) &&& 0x7) + ((inst >>> 12) &&& 0xF) : Nat))
          ||| (s.memory (toU16 (s.regs ((inst >>> 9) &&& 0x7) + ((inst >>> 12) &&& 0xF) : Nat)
            + 1) <<< 8) : Nat))).setPc (toU16 (s.pc + 2))) := by
  rw [executeInstruction_L fuel inst s hL]
  simp only [execL, hL3, show ¬ ((1 : Nat) = 0) by decide, if_false, if_true, hin, finish]
  rfl

/-- The byte part of C3 holds at every address: `sb` followed by `lbu` of
the same effective address leaves the low 8 bits of the stored register in
`rd`. -/
theorem sb_lbu_round_trip (fuel sb lbu : Nat) (s : State)
    (hS : sb &&& 0x7 = 3) (hS3 : (sb >>> 3) &&& 0x7 = 0)
    (hL : lbu &&& 0x7 = 4) (hL3 : (lbu >>> 3) &&& 0x7 = 4) :
    ∃ s1 s2, executeInstruction fuel sb s = .ok (1, s1) ∧
      executeInstruction fuel lbu s1 = .ok (1, s2) ∧
      (toU16 (s.regs ((sb >>> 6) &&& 0x7) + ((sb >>> 12) &&& 0xF) : Nat) =
        toU16 (s1.regs ((lbu >>> 9) &&& 0x7) + ((lbu >>> 12) &&& 0xF) : Nat) →
        s2.regs ((lbu >>> 6) &&& 0x7) = s.regs ((sb >>> 9) &&& 0x7) % 256) := by
  refine ⟨_, _, executeInstruction_sb fuel sb s hS hS3,
    executeInstruction_lbu fuel lbu _ hL hL3, ?_⟩
  intro haddr
  simp only [State.setReg, State.setMem, State.setPc, if_true] at haddr ⊢
  rw [← haddr]
  simp only [if_true]
  exact Nat.and_pow_two_sub_one_eq_mod _ 8

/-- The word part of C3 holds at every effective address except `0xFFFF`:
`sw` followed by `lw` of the same effective address leaves the stored 16-bit
value in `rd`. -/
theorem sw_lw_round_trip (fuel sw lw : Nat) (s : State)
    (hS : sw &&& 0x7 = 3) (hS3 : (sw >>> 3) &&& 0x7 = 1)
    (hL : lw &&& 0x7 = 4) (hL3 : (lw >>> 3) &&& 0x7 = 1)
    (hv : s.regs ((sw >>> 9) &&& 0x7) < 65536)
    (htop : toU16 (s.regs ((sw >>> 6) &&& 0x7) + ((sw >>> 12) &&& 0xF) : Nat) ≠ 0xFFFF) :
    ∃ s1, executeInstruction fuel sw s = .ok (1, s1) ∧
      (toU16 (s.regs ((sw >>> 6) &&& 0x7) + ((sw >>> 12) &&& 0xF) : Nat) =
        toU16 (s1.regs ((lw >>> 9) &&& 0x7) + ((lw >>> 12) &&& 0xF) : Nat) →
        ∃ s2, executeInstruction fuel lw s1 = .ok (1, s2) ∧
          s2.regs ((lw >>> 6) &&& 0x7) = s.regs ((sw >>> 9) &&& 0x7)) := by
  have hlt := toU16_lt (s.regs ((sw >>> 6) &&& 0x7) + ((sw >>> 12) &&& 0xF) : Nat)
  have hin : toU16 (s.regs ((sw >>> 6) &&& 0x7) + ((sw >>> 12) &&& 0xF) : Nat) + 1 < MEM_SIZE := by
    unfold MEM_SIZE; omega
  refine ⟨_, executeInstruction_sw fuel sw s hS hS3 hin, ?_⟩
  intro haddr
  have hin2 := hin
  rw [haddr] at hin2
  refine ⟨_, executeInstruction_lw fuel lw _ hL hL3 hin2, ?_⟩
  simp only [State.setReg, State.setMem, State.setPc, if_true] at haddr ⊢
  rw [← haddr]
  simp only [if_true, toU16_natCast]
  rw [if_neg (by omega), byte_pair_eq _ hv]
  exact Nat.mod_eq_of_lt hv

/-- C3 fails at effective address `0xFFFF`: with `t0 = 0xFFFF`, both
`sw ra, 0(t0)` (word `0x020B`) and `lw ra, 0(t0)` (word `0x004C`) index
`memory[65536]`, one past the end of the array. -/
theorem sw_lw_top_address_out_of_bounds :
    executeInstruction 0 0x020B topAddressState = .outOfBounds ∧
    executeInstruction 0 0x004C topAddressState = .outOfBounds :=
  ⟨rfl, rfl⟩

/-! ## C4: `slt` and `sltu` -/

theorem toI16_eq_signed16 (v : Nat) (h : v < 65536) : toI16 (v : Int) = signed16 v := by
  unfold signed16
  exact toI16_of_lt v h

/-- C4: an R-type word with `funct3 = 1` (`slt`, any `funct4`) sets `rd` to 1
when `rd < rs2` as two's-complement 16-bit integers and to 0 otherwise; with
`funct3 = 2` (`sltu`, any `funct4`) the comparison is unsigned. The result is
0 or 1. -/
theorem slt_sltu_result (fuel slt sltu : Nat) (s : State)
    (hregs : ∀ i, s.regs i < 65536)
    (hslt : slt &&& 0x7 = 0) (hslt3 : (slt >>> 3) &&& 0x7 = 1)
    (hsltu : sltu &&& 0x7 = 0) (hsltu3 : (sltu >>> 3) &&& 0x7 = 2) :
    (∃ s', executeInstruction fuel slt s = .ok (1, s') ∧
      s'.regs ((slt >>> 6) &&& 0x7) =
        (if signed16 (s.regs ((slt >>> 6) &&& 0x7)) < signed16 (s.regs ((slt >>> 9) &&& 0x7))
          then 1 else 0) ∧
      (s'.regs ((slt >>> 6) &&& 0x7) = 0 ∨ s'.regs ((slt >>> 6) &&& 0x7) = 1)) ∧
    (∃ s', executeInstruction fuel sltu s = .ok (1, s') ∧
      s'.regs ((sltu >>> 6) &&& 0x7) =
        (if s.regs ((sltu >>> 6) &&& 0x7) < s.regs ((sltu >>> 9) &&& 0x7) then 1 else 0) ∧
      (s'.regs ((sltu >>> 6) &&& 0x7) = 0 ∨ s'.regs ((sltu >>> 6) &&& 0x7) = 1)) := by
  constructor
  · refine ⟨(s.setReg ((slt >>> 6) &&& 0x7)
      (if toI16 (s.regs ((slt >>> 6) &&& 0x7)) < toI16 (s.regs ((slt >>> 9) &&& 0x7))
        then 1 else 0)).setPc (toU16 (s.pc + 2)), ?_, ?_, ?_⟩
    · rw [executeInstruction_R fuel slt s hslt]
      simp only [execR, hslt3, show ¬ ((1 : Nat) = 0) by decide, if_false, if_true, finish]
      rfl
    · simp only [State.setReg, State.setPc, if_true]
      rw [toI16_eq_signed16 _ (hregs _), toI16_eq_signed16 _ (hregs _)]
    · simp only [State.setReg, State.setPc, if_true]
      split_ifs
      · exact Or.inr rfl
      · exact Or.inl rfl
  · refine ⟨(s.setReg ((sltu >>> 6) &&& 0x7)
      (if s.regs ((sltu >>> 6) &&& 0x7) < s.regs ((sltu >>> 9) &&& 0x7)
        then 1 else 0)).setPc (toU16 (s.pc + 2)), ?_, ?_, ?_⟩
    · rw [executeInstruction_R fuel sltu s hsltu]
      simp only [execR, hsltu3, show ¬ ((2 : Nat) = 0) by decide,
        show ¬ ((2 : Nat) = 1) by decide, if_false, if_true, finish]
      rfl
    · simp only [State.setReg, State.setPc, if_true]
    · simp only [State.setReg, State.setPc, if_true]
      split_ifs
      · exact Or.inr rfl
      · exact Or.inl rfl

theorem compareState_regs (i : Nat) : compareState.regs i < 65536 := by
  unfold compareState
  simp only
  split_ifs <;> omega

/-- C4 at `t0 = 0xFFFF`, `t1 = 0x0001`: `slt t0, t1` (word `0x0A08`) gives 1
and `sltu t0, t1` (word `0x0A10`) gives 0. -/
theorem slt_sltu_result_witness :
    (∃ s', executeInstruction 0 0x0A08 compareState = .ok (1, s') ∧
      s'.regs 0 = 1 ∧ (s'.regs 0 = 0 ∨ s'.regs 0 = 1)) ∧
    (∃ s', executeInstruction 0 0x0A10 compareState = .ok (1, s') ∧
      s'.regs 0 = 0 ∧ (s'.regs 0 = 0 ∨ s'.regs 0 = 1)) :=
  slt_sltu_result 0 0x0A08 0x0A10 compareState compareState_regs
    (by decide) (by decide) (by decide) (by decide)

/-! ## C5: right shifts -/

/-- The arithmetic right shift of the executor as floor division of the
signed value. -/
theorem toU16_sra (v n : Nat) (hv : v < 65536) :
    ((toU16 (toI16 (v : Int) >>> n) : Nat) : Int) =
      Int.fdiv (signed16 v) ((2 ^ n : Nat) : Int) % 65536 := by
  rw [toU16_cast, Int.shiftRight_eq_div_pow, toI16_eq_signed16 v hv,
    Int.fdiv_eq_ediv _ (Int.ofNat_nonneg _)]

theorem toU16_sra_ones (n : Nat) (hn : n ≤ 15) :
    toU16 (toI16 ((0xFFFF : Nat) : Int) >>> n) = 0xFFFF := by
  interval_cases n <;> decide

/-- The logical right shift of the executor as division of the unsigned
value. -/
theorem toU16_srl (v n : Nat) (hv : v < 65536) :
    toU16 ((v >>> n : Nat) : Int) = v / 2 ^ n := by
  rw [toU16_natCast, Nat.shiftRight_eq_div_pow]
  exact Nat.mod_eq_of_lt (Nat.lt_of_le_of_lt (Nat.div_le_self _ _) hv)

theorem srl_ones_lt (n : Nat) (h1 : 1 ≤ n) (hn : n ≤ 15) : 0xFFFF / 2 ^ n < 32768 := by
  interval_cases n <;> decide

/-- C5: `sra` (R-type, `funct3 = 3`, `funct4 = 8`, `n = rs2 & 0xF`) and `srai`
(I-type, `funct3 = 3`, `shift_type = 4`, `n = shamt`) set `rd` to the floor of
the signed value of `rd` divided by `2^n`, modulo `2^16`, so `0xFFFF` stays
`0xFFFF`; `srl` (`funct4 = 4`) and `srli` (`shift_type = 2`) set `rd` to the
floor of the unsigned value divided by `2^n`, so from `0xFFFF` and `n ≥ 1`
the result has bit 15 clear. -/
theorem right_shifts (fuel sra srai srl srli : Nat) (s : State)
    (hregs : ∀ i, s.regs i < 65536)
    (hsra : sra &&& 0x7 = 0) (hsra3 : (sra >>> 3) &&& 0x7 = 3)
    (hsra4 : (sra >>> 12) &&& 0xF = 8)
    (hsrai : srai &&& 0x7 = 1) (hsrai3 : (srai >>> 3) &&& 0x7 = 3)
    (hsraiT : (((srai >>> 9) &&& 0x7F) >>> 4) &&& 0x7 = 4)
    (hsrl : srl &&& 0x7 = 0) (hsrl3 : (srl >>> 3) &&& 0x7 = 3)
    (hsrl4 : (srl >>> 12) &&& 0xF = 4)
    (hsrli : srli &&& 0x7 = 1) (hsrli3 : (srli >>> 3) &&& 0x7 = 3)
    (hsrliT : (((srli >>> 9) &&& 0x7F) >>> 4) &&& 0x7 = 2) :
    (∃ s', executeInstruction fuel sra s = .ok (1, s') ∧
      ((s'.regs ((sra >>> 6) &&& 0x7) : Nat) : Int) =
        Int.fdiv (signed16 (s.regs ((sra >>> 6) &&& 0x7)))
          ((2 ^ (s.regs ((sra >>> 9) &&& 0x7) &&& 0xF) : Nat) : Int) % 65536 ∧
      (s.regs ((sra >>> 6) &&& 0x7) = 0xFFFF → s'.regs ((sra >>> 6) &&& 0x7) = 0xFFFF)) ∧
    (∃ s', executeInstruction fuel srai s = .ok (1, s') ∧
      ((s'.regs ((srai >>> 6) &&& 0x7) : Nat) : Int) =
        Int.fdiv (signed16 (s.regs ((srai >>> 6) &&& 0x7)))
          ((2 ^ (((srai >>> 9) &&& 0x7F) &&& 0xF) : Nat) : Int) % 65536 ∧
      (s.regs ((srai >>> 6) &&& 0x7) = 0xFFFF → s'.regs ((srai >>> 6) &&& 0x7) = 0xFFFF)) ∧
    (∃ s', executeInstruction fuel srl s = .ok (1, s') ∧
      s'.regs ((srl >>> 6) &&& 0x7) =
        s.regs ((srl >>> 6) &&& 0x7) / 2 ^ (s.regs ((srl >>> 9) &&& 0x7) &&& 0xF) ∧
      (s.regs ((srl >>> 6) &&& 0x7) = 0xFFFF → 1 ≤ s.regs ((srl >>> 9) &&& 0x7) &&& 0xF →
        s'.regs ((srl >>> 6) &&& 0x7) < 32768)) ∧
    (∃ s', executeInstruction fuel srli s = .ok (1, s') ∧
      s'.regs ((srli >>> 6) &&& 0x7) =
        s.regs ((srli >>> 6) &&& 0x7) / 2 ^ (((srli >>> 9) &&& 0x7F) &&& 0xF) ∧
      (s.regs ((srli >>> 6) &&& 0x7) = 0xFFFF → 1 ≤ ((srli >>> 9) &&& 0x7F) &&& 0xF →
        s'.regs ((srli >>> 6) &&& 0x7) < 32768)) := by
  have n3 : ¬ ((3 : Nat) = 0) := by decide
  have n31 : ¬ ((3 : Nat) = 1) := by decide
  have n32 : ¬ ((3 : Nat) = 2) := by decide
  have n82 : ¬ ((8 : Nat) = 2) := by decide
  have n84 : ¬ ((8 : Nat) = 4) := by decide
  have n42 : ¬ ((4 : Nat) = 2) := by decide
  have n41 : ¬ ((4 : Nat) = 1) := by decide
  have n21 : ¬ ((2 : Nat) = 1) := by decide
  refine ⟨?_, ?_, ?_, ?_⟩
  · refine ⟨(s.setReg ((sra >>> 6) &&& 0x7) (toU16 (toI16 (s.regs ((sra >>> 6) &&& 0x7)) >>>
      (s.regs ((sra >>> 9) &&& 0x7) &&& 0xF)))).setPc (toU16 (s.pc + 2)), ?_, ?_, ?_⟩
    · rw [executeInstruction_R fuel sra s hsra]
      simp only [execR, hsra3, hsra4, n3, n31, n32, n82, n84, if_false, if_true, finish]
      rfl
    · simp only [State.setReg, State.setPc, if_true]
      exact toU16_sra _ _ (hregs _)
    · intro hv
      simp only [State.setReg, State.setPc, if_true]
      rw [hv]
      exact toU16_sra_ones _ Nat.and_le_right
  · refine ⟨(s.setReg ((srai >>> 6) &&& 0x7) (toU16 (toI16 (s.regs ((srai >>> 6) &&& 0x7)) >>>
      (((srai >>> 9) &&& 0x7F) &&& 0xF)))).setPc (toU16 (s.pc + 2)), ?_, ?_, ?_⟩
    · rw [executeInstruction_I fuel srai s hsrai]
      simp only [execI, hsrai3, hsraiT, n3, n31, n32, n41, n42, if_false, if_true, finish]
      rfl
    · simp only [State.setReg, State.setPc, if_true]
      exact toU16_sra _ _ (hregs _)
    · intro hv
      simp only [State.setReg, State.setPc, if_true]
      rw [hv]
      exact toU16_sra_ones _ Nat.and_le_right
  · refine ⟨(s.setReg ((srl >>> 6) &&& 0x7) (toU16 ((s.regs ((srl >>> 6) &&& 0x7) >>>
      (s.regs ((srl >>> 9) &&& 0x7) &&& 0xF) : Nat) : Int))).setPc (toU16 (s.pc + 2)),
      ?_, ?_, ?_⟩
    · rw [executeInstruction_R fuel srl s hsrl]
      simp only [execR, hsrl3, hsrl4, n3, n31, n32, n42, if_false, if_true, finish]
      rfl
    · simp only [State.setReg, State.setPc, if_true]
      exact toU16_srl _ _ (hregs _)
    · intro hv h1
      simp only [State.setReg, State.setPc, if_true]
      rw [toU16_srl _ _ (hregs _), hv]
      exact srl_ones_lt _ h1 Nat.and_le_right
  · refine ⟨(s.setReg ((srli >>> 6) &&& 0x7) (toU16 ((s.regs ((srli >>> 6) &&& 0x7) >>>
      (((srli >>> 9) &&& 0x7F) &&& 0xF) : Nat) : Int))).setPc (toU16 (s.pc + 2)), ?_, ?_, ?_⟩
    · rw [executeInstruction_I fuel srli s hsrli]
      simp only [execI, hsrli3, hsrliT, n3, n31, n32, n21, if_false, if_true, finish]
      rfl
    · simp only [State.setReg, State.setPc, if_true]
      exact toU16_srl _ _ (hregs _)
    · intro hv h1
      simp only [State.setReg, State.setPc, if_true]
      rw [toU16_srl _ _ (hregs _), hv]
      exact srl_ones_lt _ h1 Nat.and_le_right

/-- C5 at `t0 = 0xFFFF`, `t1 = 1`: `sra t0, t1` (word `0x8A18`) and
`srai t0, 3` (word `0x8619`) keep `0xFFFF`; `srl t0, t1` (word `0x4A18`) gives
`0x7FFF` and `srli t0, 3` (word `0x4619`) gives `0x1FFF`. -/
theorem right_shifts_witness :
    (∃ s', executeInstruction 0 0x8A18 compareState = .ok (1, s') ∧ s'.regs 0 = 0xFFFF) ∧
    (∃ s', executeInstruction 0 0x8619 compareState = .ok (1, s') ∧ s'.regs 0 = 0xFFFF) ∧
    (∃ s', executeInstruction 0 0x4A18 compareState = .ok (1, s') ∧ s'.regs 0 = 0x7FFF) ∧
    (∃ s', executeInstruction 0 0x4619 compareState = .ok (1, s') ∧ s'.regs 0 = 0x1FFF) := by
  obtain ⟨⟨a, ha, _, ha2⟩, ⟨b, hb, _, hb2⟩, ⟨c, hc, hc1, _⟩, ⟨d, hd, hd1, _⟩⟩ :=
    right_shifts 0 0x8A18 0x8619 0x4A18 0x4619 compareState compareState_regs
      (by decide) (by decide) (by decide) (by decide) (by decide) (by decide)
      (by decide) (by decide) (by decide) (by decide) (by decide) (by decide)
  exact ⟨⟨a, ha, ha2 rfl⟩, ⟨b, hb, hb2 rfl⟩, ⟨c, hc, hc1⟩, ⟨d, hd, hd1⟩⟩

/-! ## C6: `lui` and `auipc` -/

/-- The U-type immediate of the executor fits in 15 bits, so the conversion
to `uint16_t` does not change it, and its low 7 bits are zero. -/
theorem upperImm_eq (inst : Nat) :
    upperImm inst = ((((inst >>> 10) &&& 0x1F) <<< 3) ||| ((inst >>> 3) &&& 0x7)) <<< 7 ∧
    upperImm inst % 128 = 0 ∧ upperImm inst < 32768 := by
  have hhi : (inst >>> 10) &&& 0x1F ≤ 0x1F := Nat.and_le_right
  have hlo : (inst >>> 3) &&& 0x7 ≤ 0x7 := Nat.and_le_right
  have h1 : ((inst >>> 10) &&& 0x1F) <<< 3 < 2 ^ 8 := by
    rw [Nat.shiftLeft_eq]; omega
  have h2 : (inst >>> 3) &&& 0x7 < 2 ^ 8 := by omega
  have h3 := Nat.or_lt_two_pow h1 h2
  have h4 : upperImm inst
      = ((((inst >>> 10) &&& 0x1F) <<< 3) ||| ((inst >>> 3) &&& 0x7)) <<< 7 := by
    unfold upperImm
    simp only
    rw [toU16_natCast, Nat.shiftLeft_eq _ 7]
    apply Nat.mod_eq_of_lt
    omega
  refine ⟨h4, ?_, ?_⟩
  · rw [h4, Nat.shiftLeft_eq _ 7]; omega
  · rw [h4, Nat.shiftLeft_eq _ 7]; omega

/-- C6: `lui` (U-type word with `f = 0`) sets `rd` to
`((bits[14:10] << 3) | bits[5:3]) << 7`, whose low 7 bits are zero; `auipc`
(`f = 1`) sets `rd` to `pc_before` plus that immediate, modulo `2^16`. -/
theorem lui_auipc_result (fuel lui auipc : Nat) (s : State)
    (hlui : lui &&& 0x7 = 6) (hluif : (lui >>> 15) &&& 0x1 = 0)
    (hauipc : auipc &&& 0x7 = 6) (hauipcf : (auipc >>> 15) &&& 0x1 = 1) :
    (∃ s', executeInstruction fuel lui s = .ok (1, s') ∧
      s'.regs ((lui >>> 6) &&& 0x7) =
        ((((lui >>> 10) &&& 0x1F) <<< 3) ||| ((lui >>> 3) &&& 0x7)) <<< 7 ∧
      s'.regs ((lui >>> 6) &&& 0x7) % 128 = 0) ∧
    (∃ s', executeInstruction fuel auipc s = .ok (1, s') ∧
      s'.regs ((auipc >>> 6) &&& 0x7) =
        (s.pc + (((((auipc >>> 10) &&& 0x1F) <<< 3) ||| ((auipc >>> 3) &&& 0x7)) <<< 7))
          % 65536) := by
  constructor
  · refine ⟨(s.setReg ((lui >>> 6) &&& 0x7) (upperImm lui)).setPc (toU16 (s.pc + 2)),
      ?_, ?_, ?_⟩
    · rw [executeInstruction_U fuel lui s hlui]
      simp only [execU, hluif, if_true, finish]
      rfl
    · simp only [State.setReg, State.setPc, if_true]
      exact (upperImm_eq lui).1
    · simp only [State.setReg, State.setPc, if_true]
      exact (upperImm_eq lui).2.1
  · refine ⟨(s.setReg ((auipc >>> 6) &&& 0x7)
      (toU16 ((s.pc + upperImm auipc : Nat) : Int))).setPc (toU16 (s.pc + 2)), ?_, ?_⟩
    · rw [executeInstruction_U fuel auipc s hauipc]
      simp only [execU, hauipcf, show ¬ ((1 : Nat) = 0) by decide, if_false, finish]
      rfl
    · simp only [State.setReg, State.setPc, if_true]
      rw [toU16_natCast, (upperImm_eq auipc).1]

/-- C6 at `lui a1, 0x7F80` (word `0x7FFE`) and `auipc a1, 0x7F80` (word
`0xFFFE`), both executed in `linkState` (`pc = 0x0010`). -/
theorem lui_auipc_result_witness :
    (∃ s', executeInstruction 0 0x7FFE linkState = .ok (1, s') ∧
      s'.regs 7 = 0x7F80 ∧ s'.regs 7 % 128 = 0) ∧
    (∃ s', executeInstruction 0 0xFFFE linkState = .ok (1, s') ∧ s'.regs 7 = 0x7F90) :=
  lui_auipc_result 0 0x7FFE 0xFFFE linkState (by decide) (by decide) (by decide) (by decide)

/-! ## C7: termination of the driver -/

/-- The loop of `ecall 5` does not end, whatever the fuel, when no byte of
memory is zero. -/
theorem printString_diverges (memory : Nat → Nat) (hmem : ∀ a, a < 65536 → memory a ≠ 0) :
    ∀ (fuel addr : Nat) (acc : List Nat), addr < 65536 →
      printString memory fuel addr acc = .outOfFuel := by
  intro fuel
  induction fuel with
  | zero => intro addr acc _; rfl
  | succ n ih =>
    intro addr acc haddr
    unfold printString
    rw [if_pos (hmem addr haddr)]
    exact ih _ _ (toU16_lt _)

/-- The instruction `ecall 5` does not return when no byte of memory is zero. -/
theorem ecall5_diverges (fuel inst : Nat) (s : State) (hop : inst &&& 0x7 = 7)
    (hsvc : (inst >>> 6) &&& 0x3FF = 5) (hmem : ∀ a, a < 65536 → s.memory a ≠ 0) :
    executeInstruction fuel inst s = .outOfFuel := by
  rw [executeInstruction_Sys fuel inst s hop]
  simp only [execSys, hsvc, show ¬ ((5 : Nat) = 1) by decide, if_false, if_true]
  rw [printString_diverges s.memory hmem fuel _ [] (toU16_lt _)]
  rfl

/-- The driver loop does not end when it fetches `ecall 5` and no byte of
memory is zero. -/
theorem driverLoop_ecall5_diverges (fuel n count : Nat) (s : State)
    (hpc : s.pc + 1 < MEM_SIZE) (hcount : count < MAX_INSTRUCTIONS)
    (hinst : toU16 (s.memory s.pc ||| (s.memory (s.pc + 1) <<< 8) : Nat) = 0x0147)
    (hmem : ∀ a, a < 65536 → s.memory a ≠ 0) :
    driverLoop fuel (n + 1) count s = .outOfFuel := by
  unfold driverLoop
  have hlt : s.pc < MEM_SIZE := by omega
  rw [if_pos ⟨hlt, hcount⟩, if_neg (by omega)]
  simp only [hinst, show ¬ ((0x0147 : Nat) = 0) by decide, if_false]
  rw [ecall5_diverges fuel 0x0147 (s.print _) (by decide) (by decide) hmem]

theorem loadMemoryFromFile_memory (image : List Nat) (s : State) (a : Nat) :
    (loadMemoryFromFile image s).memory a =
      if a < min image.length MEM_SIZE then image.getD a 0 % 256 else s.memory a :=
  rfl

theorem unterminatedImage_length : unterminatedImage.length = 65536 := by
  unfold unterminatedImage
  rw [List.length_cons, List.length_replicate]

theorem unterminatedImage_getD (a : Nat) (ha : a < 65536) :
    unterminatedImage.getD a 0 = if a = 0 then 0x47 else 0x01 := by
  unfold unterminatedImage
  cases a with
  | zero => rfl
  | succ b =>
    have hb : b < 65535 := by omega
    rw [List.getD_cons_succ, List.getD_eq_getElem?_getD,
      List.getElem?_replicate_of_lt hb, if_neg (Nat.succ_ne_zero b)]
    rfl

theorem unterminatedImage_memory (a : Nat) (ha : a < 65536) :
    (loadMemoryFromFile unterminatedImage initialState).memory a =
      if a = 0 then 0x47 else 0x01 := by
  have hlt : a < min unterminatedImage.length MEM_SIZE := by
    rw [unterminatedImage_length]
    exact ha
  rw [loadMemoryFromFile_memory, if_pos hlt, unterminatedImage_getD a ha]
  split_ifs <;> rfl

/-- A run of `main` does not end when its driver loop does not. -/
theorem main_outOfFuel (fuel : Nat) (image : List Nat)
    (h : driverLoop fuel fuel 0
      { loadMemoryFromFile image initialState with regs := fun _ => 0, pc := 0 } = .outOfFuel) :
    main fuel image = .outOfFuel := by
  unfold main
  simp only [h]

/-- The driver loop started at `pc = 0` on a memory holding `ecall 5` at
address 0 and no zero byte does not end. -/
theorem driverLoop_unterminated (fuel n : Nat) (s : State)
    (hm : ∀ a, a < 65536 → s.memory a = if a = 0 then 0x47 else 0x01) :
    driverLoop fuel n 0 { s with regs := fun _ => 0, pc := 0 } = .outOfFuel := by
  cases n with
  | zero => rfl
  | succ k =>
    have hmem : ∀ a, a < 65536 → s.memory a ≠ 0 := by
      intro a ha
      rw [hm a ha]
      split_ifs <;> decide
    have hinst : toU16 ((s.memory 0 ||| (s.memory (0 + 1) <<< 8) : Nat) : Int) = 0x0147 := by
      rw [hm 0 (by decide), hm (0 + 1) (by decide)]
      decide
    exact driverLoop_ecall5_diverges fuel k 0 { s with regs := fun _ => 0, pc := 0 }
      (show 0 + 1 < 65536 by decide) (by decide) hinst hmem

/-- What does hold of the cap: the driver loop needs at most
`MAX_INSTRUCTIONS + 1` evaluations of its condition, so with that much fuel
it can only fail to end because an instruction it executes does not return. -/
theorem driverLoop_bounded (fuel : Nat) :
    ∀ (n count : Nat) (s : State), MAX_INSTRUCTIONS ≤ n + count →
      driverLoop fuel (n + 1) count s = .outOfFuel →
      ∃ inst t, executeInstruction fuel inst t = .outOfFuel := by
  intro n
  induction n with
  | zero =>
    intro count s hle h
    unfold driverLoop at h
    rw [if_neg (by omega)] at h
    cases h
  | succ k ih =>
    intro count s hle h
    unfold driverLoop at h
    simp only at h
    split_ifs at h
    split at h
    · split_ifs at h
      exact ih (count + 1) _ (by omega) h
    · cases h
    · rename_i hexec
      exact ⟨_, _, hexec⟩

/-- C7 fails on `unterminatedImage`: the first instruction is `ecall 5`, no
byte of memory is zero, and the run of `main` is still inside the loop of
`ecall 5` after any number of steps. The instruction cap is never consulted
again. -/
theorem driver_diverges_on_unterminated_string (fuel : Nat) :
    main fuel unterminatedImage = .outOfFuel :=
  main_outOfFuel fuel unterminatedImage
    (driverLoop_unterminated fuel fuel (loadMemoryFromFile unterminatedImage initialState)
      unterminatedImage_memory)

/-! ## C8: the halt signal -/

/-- What a result of `finish` says about the way the `switch` was left. -/
theorem finish_ok {o : Outcome Flow} {c : Int} {s' : State} (h : finish o = .ok (c, s')) :
    (c = 1 ∧ ∃ t u, o = .ok (.brk t u)) ∨ o = .ok (.ret c s') := by
  cases o with
  | ok f =>
    cases f with
    | brk t u =>
      simp only [finish, Outcome.ok.injEq, Prod.mk.injEq] at h
      exact Or.inl ⟨h.1.symm, t, u, rfl⟩
    | ret c0 t =>
      simp only [finish, Outcome.ok.injEq, Prod.mk.injEq] at h
      rw [h.1, h.2]
      exact Or.inr rfl
  | outOfBounds => simp [finish] at h
  | outOfFuel => simp [finish] at h

/-- C8: `executeInstruction` returns 0 (halt) exactly on the words with opcode
bits `[2:0] = 7` and service field bits `[15:6] = 3`, whatever bits `[5:3]`
are, and on those it does return, for every state; on every other word on
which it returns, the result is 1. -/
theorem halt_iff_ecall3 (fuel inst : Nat) (s : State) :
    ((inst &&& 0x7 = 7 ∧ (inst >>> 6) &&& 0x3FF = 3) →
      executeInstruction fuel inst s = .ok (0, s)) ∧
    (∀ c s', executeInstruction fuel inst s = .ok (c, s') →
      (c = 0 ↔ (inst &&& 0x7 = 7 ∧ (inst >>> 6) &&& 0x3FF = 3)) ∧ (c = 0 ∨ c = 1)) := by
  constructor
  · rintro ⟨hop, hsvc⟩
    rw [executeInstruction_Sys fuel inst s hop]
    simp only [execSys, hsvc, show ¬ ((3 : Nat) = 1) by decide,
      show ¬ ((3 : Nat) = 5) by decide, if_false, if_true, finish]
  · intro c s' hret
    have one : ∀ {P : Prop}, (P → False) → c = 1 → (c = 0 ↔ P) ∧ (c = 0 ∨ c = 1) := by
      intro P hP hc
      subst hc
      exact ⟨⟨fun h => absurd h (by decide), fun h => (hP h).elim⟩, Or.inr rfl⟩
    rcases executeInstruction_cases fuel inst s with
      ⟨hop, he⟩ | ⟨hop, he⟩ | ⟨hop, he⟩ | ⟨hop, he⟩ | ⟨hop, he⟩ | ⟨hop, he⟩ | ⟨hop, he⟩ | ⟨hop, he⟩
    · rw [he] at hret
      rcases finish_ok hret with ⟨hc, _⟩ | ho
      · exact one (fun h => by rw [hop] at h; exact absurd h.1 (by decide)) hc
      · exact absurd ho (execR_no_ret inst s s' c)
    · rw [he] at hret
      rcases finish_ok hret with ⟨hc, _⟩ | ho
      · exact one (fun h => by rw [hop] at h; exact absurd h.1 (by decide)) hc
      · exact absurd ho (execI_no_ret inst s s' c)
    · rw [he] at hret
      rcases finish_ok hret with ⟨hc, _⟩ | ho
      · exact one (fun h => by rw [hop] at h; exact absurd h.1 (by decide)) hc
      · exact absurd ho (execB_no_ret inst s s' c)
    · rw [he] at hret
      rcases finish_ok hret with ⟨hc, _⟩ | ho
      · exact one (fun h => by rw [hop] at h; exact absurd h.1 (by decide)) hc
      · exact absurd ho (execS_no_ret inst s s' c)
    · rw [he] at hret
      rcases finish_ok hret with ⟨hc, _⟩ | ho
      · exact one (fun h => by rw [hop] at h; exact absurd h.1 (by decide)) hc
      · exact absurd ho (execL_no_ret inst s s' c)
    · rw [he] at hret
      rcases finish_ok hret with ⟨hc, _⟩ | ho
      · exact one (fun h => by rw [hop] at h; exact absurd h.1 (by decide)) hc
      · unfold execJ at ho
        cases ho
    · rw [he] at hret
      rcases finish_ok hret with ⟨hc, _⟩ | ho
      · exact one (fun h => by rw [hop] at h; exact absurd h.1 (by decide)) hc
      · exact absurd ho (execU_no_ret inst s s' c)
    · rw [he] at hret
      rcases finish_ok hret with ⟨hc, t, u, ho⟩ | ho
      · exact one (fun h => (execSys_pc fuel inst s t u ho).2.2 h.2) hc
      · obtain ⟨hc, _, hsvc⟩ := execSys_ret fuel inst s s' c ho
        exact ⟨⟨fun _ => ⟨hop, hsvc⟩, fun _ => hc⟩, Or.inl hc⟩

/-- C8 at the word `0x00FF` (opcode 7, service 3, bits `[5:3] = 7`), which
halts, and at `li a0, 42` (word `0x55B9`), which returns 1. -/
theorem halt_iff_ecall3_witness :
    executeInstruction 0 0x00FF initialState = .ok (0, initialState) ∧
    (((1 : Int) = 0 ↔ (0x55B9 &&& 0x7 = 7 ∧ (0x55B9 >>> 6) &&& 0x3FF = 3)) ∧
      ((1 : Int) = 0 ∨ (1 : Int) = 1)) :=
  ⟨(halt_iff_ecall3 0 0x00FF initialState).1 ⟨by decide, by decide⟩,
    (halt_iff_ecall3 0 0x55B9 initialState).2 1 afterLi42 rfl⟩

/-! ## C10: branch offsets -/

/-- The B-type offset is twice the 4-bit field, read as a signed 5-bit
number. -/
theorem branchOffset_eq (inst : Nat) :
    branchOffset inst =
      (if 2 * ((inst >>> 12) &&& 0xF) < 16 then ((2 * ((inst >>> 12) &&& 0xF) : Nat) : Int)
        else ((2 * ((inst >>> 12) &&& 0xF) : Nat) : Int) - 32) ∧
    branchOffset inst % 2 = 0 ∧ -16 ≤ branchOffset inst ∧ branchOffset inst ≤ 14 := by
  have hle : (inst >>> 12) &&& 0xF ≤ 0xF := Nat.and_le_right
  unfold branchOffset
  simp only
  generalize (inst >>> 12) &&& 0xF = h at hle
  interval_cases h <;> decide

/-- C10: for every B-type word the byte offset is `2 * bits[15:12]` read as
a signed 5-bit value, an even number in `-16 .. 14`; when the branch
condition holds, `executeInstruction` sets `pc` to `pc_before + offset`
modulo `2^16` and returns 1. -/
theorem branch_offset_and_target (fuel inst : Nat) (s : State) (hB : inst &&& 0x7 = 2) :
    (branchOffset inst =
      (if 2 * ((inst >>> 12) &&& 0xF) < 16 then ((2 * ((inst >>> 12) &&& 0xF) : Nat) : Int)
        else ((2 * ((inst >>> 12) &&& 0xF) : Nat) : Int) - 32) ∧
      branchOffset inst % 2 = 0 ∧ -16 ≤ branchOffset inst ∧ branchOffset inst ≤ 14) ∧
    (takeBranch ((inst >>> 3) &&& 0x7) (s.regs ((inst >>> 6) &&& 0x7))
        (s.regs ((inst >>> 9) &&& 0x7)) = true →
      ∃ s', executeInstruction fuel inst s = .ok (1, s') ∧
        (s'.pc : Int) = (s.pc + branchOffset inst) % 65536 ∧
        s'.regs = s.regs ∧ s'.memory = s.memory) := by
  refine ⟨branchOffset_eq inst, fun htake => ?_⟩
  refine ⟨s.setPc (toU16 (s.pc + branchOffset inst)), ?_, ?_,
    State.setPc_regs s _, State.setPc_memory s _⟩
  · rw [executeInstruction_B fuel inst s hB]
    simp only [execB, htake, if_true, finish]
  · rw [State.setPc_pc, toU16_cast]

/-- C10 at `pc = 2`, `beq t0, t0` with offset field 2 (word `0x2002`): the
offset is 4 and `pc` becomes 6. -/
theorem branch_offset_and_target_witness :
    branchOffset 0x2002 = 4 ∧
    ∃ s', executeInstruction 0 0x2002 atPcTwo = .ok (1, s') ∧ (s'.pc : Int) = 6 ∧
      s'.regs = atPcTwo.regs ∧ s'.memory = atPcTwo.memory :=
  ⟨(branch_offset_and_target 0 0x2002 atPcTwo (by decide)).1.1,
    (branch_offset_and_target 0 0x2002 atPcTwo (by decide)).2 (by decide)⟩

/-! ## C9: unrecognised sub-encodings -/

/-- A text stored by `snprintf` that begins with `Unknown` comes from a
formatted text whose first character is `U`. -/
theorem beginsWith_snprintf (bufSize : Nat) (text : String)
    (h : beginsWith "Unknown" (snprintf bufSize text)) : ∃ rest, text.data = 'U' :: rest := by
  unfold beginsWith snprintf at h
  have hlen : "Unknown".length = 7 := by decide
  have hdata : "Unknown".data = ['U', 'n', 'k', 'n', 'o', 'w', 'n'] := by decide
  rw [hlen, hdata] at h
  cases htext : text.data with
  | nil =>
    rw [htext] at h
    simp at h
  | cons c cs =>
    rw [htext] at h
    cases hk : bufSize - 1 with
    | zero =>
      rw [hk] at h
      simp at h
    | succ k =>
      rw [hk] at h
      simp only [List.take_succ_cons, List.cons.injEq] at h
      exact ⟨cs, by rw [h.1]⟩


theorem disassemble_unknown_R (inst pc bufSize : Nat) (hop : inst &&& 0x7 = 0)
    (h : beginsWith "Unknown" (disassemble inst pc bufSize)) :
    ((inst >>> 3) &&& 0x7 = 0 ∧ (inst >>> 12) &&& 0xF ≠ 0 ∧
      (inst >>> 12) &&& 0xF ≠ 1 ∧ (inst >>> 12) &&& 0xF ≠ 4 ∧ (inst >>> 12) &&& 0xF ≠ 8) ∨
    ((inst >>> 3) &&& 0x7 = 3 ∧ (inst >>> 12) &&& 0xF ≠ 2 ∧
      (inst >>> 12) &&& 0xF ≠ 4 ∧ (inst >>> 12) &&& 0xF ≠ 8) := by
  have hf3 : (inst >>> 3) &&& 0x7 ≤ 0x7 := Nat.and_le_right
  unfold disassemble at h
  simp only [hop] at h
  generalize (inst >>> 3) &&& 0x7 = f3 at hf3 h
  generalize (inst >>> 12) &&& 0xF = f4 at h
  split_ifs at h
  all_goals first
    | omega
    | (exfalso
       obtain ⟨rest, hr⟩ := beginsWith_snprintf _ _ h
       simp [String.data_append] at hr)

theorem disassemble_unknown_I (inst pc bufSize : Nat) (hop : inst &&& 0x7 = 1)
    (h : beginsWith "Unknown" (disassemble inst pc bufSize)) :
    (inst >>> 3) &&& 0x7 = 3 ∧
      (((inst >>> 9) &&& 0x7F) >>> 4) &&& 0x7 ≠ 1 ∧
      (((inst >>> 9) &&& 0x7F) >>> 4) &&& 0x7 ≠ 2 ∧
      (((inst >>> 9) &&& 0x7F) >>> 4) &&& 0x7 ≠ 4 := by
  have hf3 : (inst >>> 3) &&& 0x7 ≤ 0x7 := Nat.and_le_right
  unfold disassemble at h
  simp only [hop] at h
  generalize (inst >>> 3) &&& 0x7 = f3 at hf3 h
  generalize (((inst >>> 9) &&& 0x7F) >>> 4) &&& 0x7 = st at h
  split_ifs at h
  all_goals first
    | omega
    | (exfalso
       obtain ⟨rest, hr⟩ := beginsWith_snprintf _ _ h
       simp [String.data_append] at hr)

theorem disassemble_unknown_B (inst pc bufSize : Nat) (hop : inst &&& 0x7 = 2)
    (h : beginsWith "Unknown" (disassemble inst pc bufSize)) : False := by
  have hf3 : (inst >>> 3) &&& 0x7 ≤ 0x7 := Nat.and_le_right
  unfold disassemble at h
  simp only [hop] at h
  generalize (inst >>> 3) &&& 0x7 = f3 at hf3 h
  split_ifs at h
  all_goals first
    | omega
    | (obtain ⟨rest, hr⟩ := beginsWith_snprintf _ _ h
       simp [String.data_append] at hr)

theorem disassemble_unknown_S (inst pc bufSize : Nat) (hop : inst &&& 0x7 = 3)
    (h : beginsWith "Unknown" (disassemble inst pc bufSize)) :
    (inst >>> 3) &&& 0x7 ≠ 0 ∧ (inst >>> 3) &&& 0x7 ≠ 1 := by
  unfold disassemble at h
  simp only [hop] at h
  generalize (inst >>> 3) &&& 0x7 = f3 at h
  split_ifs at h
  all_goals first
    | omega
    | (exfalso
       obtain ⟨rest, hr⟩ := beginsWith_snprintf _ _ h
       simp [String.data_append] at hr)

theorem disassemble_unknown_L (inst pc bufSize : Nat) (hop : inst &&& 0x7 = 4)
    (h : beginsWith "Unknown" (disassemble inst pc bufSize)) :
    (inst >>> 3) &&& 0x7 ≠ 0 ∧ (inst >>> 3) &&& 0x7 ≠ 1 ∧ (inst >>> 3) &&& 0x7 ≠ 4 := by
  unfold disassemble at h
  simp only [hop] at h
  generalize (inst >>> 3) &&& 0x7 = f3 at h
  split_ifs at h
  all_goals first
    | omega
    | (exfalso
       obtain ⟨rest, hr⟩ := beginsWith_snprintf _ _ h
       simp [String.data_append] at hr)

theorem disassemble_unknown_J (inst pc bufSize : Nat) (hop : inst &&& 0x7 = 5)
    (h : beginsWith "Unknown" (disassemble inst pc bufSize)) : False := by
  unfold disassemble at h
  simp only [hop] at h
  split_ifs at h
  all_goals
    (obtain ⟨rest, hr⟩ := beginsWith_snprintf _ _ h
     simp [String.data_append] at hr)

theorem disassemble_unknown_U (inst pc bufSize : Nat) (hop : inst &&& 0x7 = 6)
    (h : beginsWith "Unknown" (disassemble inst pc bufSize)) : False := by
  unfold disassemble at h
  simp only [hop] at h
  split_ifs at h
  all_goals
    (obtain ⟨rest, hr⟩ := beginsWith_snprintf _ _ h
     simp [String.data_append] at hr)

theorem disassemble_unknown_Sys (inst pc bufSize : Nat) (hop : inst &&& 0x7 = 7)
    (h : beginsWith "Unknown" (disassemble inst pc bufSize)) : False := by
  unfold disassemble at h
  simp only [hop] at h
  obtain ⟨rest, hr⟩ := beginsWith_snprintf _ _ h
  simp [String.data_append] at hr

/-- An instruction that changes nothing but the program counter. -/
theorem nop_result (s : State) :
    ∃ s', (Outcome.ok ((1 : Int), s.setPc (toU16 (s.pc + 2))) : Outcome (Int × State))
        = .ok (1, s') ∧
      s'.regs = s.regs ∧ s'.memory = s.memory ∧ s'.stdout = s.stdout ∧
      s'.pc = (s.pc + 2) % 65536 :=
  ⟨_, rfl, State.setPc_regs s _, State.setPc_memory s _, State.setPc_stdout s _,
    by rw [State.setPc_pc, toU16_pc_add_two]⟩

/-- C9: on every word whose disassembly begins with `Unknown`, and on every
`ecall` whose service number is not 1, 3 or 5, `executeInstruction` returns 1
with all registers, all of memory and the output unchanged and `pc` advanced
by 2 modulo `2^16`. -/
theorem unknown_encoding_is_nop (fuel inst pc bufSize : Nat) (s : State)
    (h : beginsWith "Unknown" (disassemble inst pc bufSize) ∨
      (inst &&& 0x7 = 7 ∧ (inst >>> 6) &&& 0x3FF ≠ 1 ∧ (inst >>> 6) &&& 0x3FF ≠ 3 ∧
        (inst >>> 6) &&& 0x3FF ≠ 5)) :
    ∃ s', executeInstruction fuel inst s = .ok (1, s') ∧
      s'.regs = s.regs ∧ s'.memory = s.memory ∧ s'.stdout = s.stdout ∧
      s'.pc = (s.pc + 2) % 65536 := by
  rcases h with h | ⟨hop, h1, h3, h5⟩
  · rcases executeInstruction_cases fuel inst s with
      ⟨hop, he⟩ | ⟨hop, he⟩ | ⟨hop, he⟩ | ⟨hop, he⟩ | ⟨hop, he⟩ | ⟨hop, he⟩ | ⟨hop, he⟩ | ⟨hop, he⟩
    · rw [he]
      rcases disassemble_unknown_R inst pc bufSize hop h with
        ⟨hf3, h0, h1, h4, h8⟩ | ⟨hf3, h2, h4, h8⟩
      · simp only [execR, hf3, h0, h1, h4, h8, if_true, if_false, finish]
        exact nop_result s
      · simp only [execR, hf3, h2, h4, h8, show ¬ ((3 : Nat) = 0) by decide,
          show ¬ ((3 : Nat) = 1) by decide, show ¬ ((3 : Nat) = 2) by decide,
          if_true, if_false, finish]
        exact nop_result s
    · rw [he]
      obtain ⟨hf3, h1, h2, h4⟩ := disassemble_unknown_I inst pc bufSize hop h
      simp only [execI, hf3, h1, h2, h4, show ¬ ((3 : Nat) = 0) by decide,
        show ¬ ((3 : Nat) = 1) by decide, show ¬ ((3 : Nat) = 2) by decide,
        if_true, if_false, finish]
      exact nop_result s
    · exact (disassemble_unknown_B inst pc bufSize hop h).elim
    · rw [he]
      obtain ⟨h0, h1⟩ := disassemble_unknown_S inst pc bufSize hop h
      simp only [execS, h0, h1, if_false, finish]
      exact nop_result s
    · rw [he]
      obtain ⟨h0, h1, h4⟩ := disassemble_unknown_L inst pc bufSize hop h
      simp only [execL, h0, h1, h4, if_false, finish]
      exact nop_result s
    · exact (disassemble_unknown_J inst pc bufSize hop h).elim
    · exact (disassemble_unknown_U inst pc bufSize hop h).elim
    · exact (disassemble_unknown_Sys inst pc bufSize hop h).elim
  · rw [executeInstruction_Sys fuel inst s hop]
    simp only [execSys, h1, h3, h5, if_false, finish]
    exact nop_result s

/-- C9 at the word `0x2000` (R-type, `funct3 = 0`, `funct4 = 2`, disassembled
as `Unknown R-type`) and at `ecall 2` (word `0x0087`), both executed in
`linkState` (`pc = 0x0010`). -/
theorem unknown_encoding_is_nop_witness :
    (∃ s', executeInstruction 0 0x2000 linkState = .ok (1, s') ∧
      s'.regs = linkState.regs ∧ s'.memory = linkState.memory ∧
      s'.stdout = linkState.stdout ∧ s'.pc = 0x0012) ∧
    (∃ s', executeInstruction 0 0x0087 linkState = .ok (1, s') ∧
      s'.regs = linkState.regs ∧ s'.memory = linkState.memory ∧
      s'.stdout = linkState.stdout ∧ s'.pc = 0x0012) :=
  ⟨unknown_encoding_is_nop 0 0x2000 0 128 linkState (Or.inl (by decide)),
    unknown_encoding_is_nop 0 0x0087 0 128 linkState
      (Or.inr ⟨by decide, by decide, by decide, by decide⟩)⟩

/-! ## C11: control-flow targets in the disassembly -/

/-- A 16-bit value is rendered by `%04X` as exactly four characters. -/
theorem fmt04X_length (n : Nat) (h : n < 65536) : (fmt04X n).length = 4 := by
  have hlen : (hexDigits n).length ≤ 4 := by
    unfold hexDigits
    rw [List.length_map]
    exact Nat.toDigitsCore_length 16 (by decide) (n + 1) n 4 (by omega) (by decide)
  unfold fmt04X
  show (List.replicate (4 - (hexDigits n).length) '0' ++ hexDigits n).length = 4
  rw [List.length_append, List.length_replicate]
  omega

/-- A text of at most `bufSize - 1` characters is stored whole by `snprintf`. -/
theorem snprintf_eq (bufSize : Nat) (text : String) (h : text.length ≤ bufSize - 1) :
    snprintf bufSize text = text := by
  unfold snprintf
  rw [List.take_of_length_le h]

theorem regNames_length (i : Nat) (h : i ≤ 7) : (regNames i).length = 2 := by
  interval_cases i <;> rfl

/-- A text made of a mnemonic of at most 8 characters, up to two register
names with separators, and a `%04X` field fits the 128-byte buffer. -/
theorem snprintf_two_regs (mnem sep1 sep2 : String) (a b T : Nat)
    (hm : mnem.length ≤ 8) (h1 : sep1.length ≤ 4) (h2 : sep2.length ≤ 4)
    (ha : a ≤ 7) (hb : b ≤ 7) (hT : T < 65536) :
    snprintf 128 (mnem ++ regNames a ++ sep1 ++ regNames b ++ sep2 ++ fmt04X T) =
      mnem ++ regNames a ++ sep1 ++ regNames b ++ sep2 ++ fmt04X T := by
  apply snprintf_eq
  simp only [String.length_append, regNames_length a ha, regNames_length b hb,
    fmt04X_length T hT]
  omega

theorem snprintf_one_reg (mnem sep : String) (a T : Nat)
    (hm : mnem.length ≤ 8) (h1 : sep.length ≤ 4) (ha : a ≤ 7) (hT : T < 65536) :
    snprintf 128 (mnem ++ regNames a ++ sep ++ fmt04X T) =
      mnem ++ regNames a ++ sep ++ fmt04X T := by
  apply snprintf_eq
  simp only [String.length_append, regNames_length a ha, fmt04X_length T hT]
  omega

theorem snprintf_no_reg (mnem : String) (T : Nat) (hm : mnem.length ≤ 8) (hT : T < 65536) :
    snprintf 128 (mnem ++ fmt04X T) = mnem ++ fmt04X T := by
  apply snprintf_eq
  simp only [String.length_append, fmt04X_length T hT]
  omega

/-- The text of a B-type word ends with the `%04X` rendering of
`pc + offset`. -/
theorem disassemble_B_target (inst pc : Nat) (hB : inst &&& 0x7 = 2) :
    ∃ head, disassemble inst pc 128 = head ++ fmt04X (toU16 (pc + branchOffset inst)) := by
  have hf3 : (inst >>> 3) &&& 0x7 ≤ 0x7 := Nat.and_le_right
  have h1 : (inst >>> 6) &&& 0x7 ≤ 7 := Nat.and_le_right
  have h2 : (inst >>> 9) &&& 0x7 ≤ 7 := Nat.and_le_right
  have hT := toU16_lt (pc + branchOffset inst)
  unfold disassemble
  simp only [hB]
  generalize toU16 (pc + branchOffset inst) = T at hT
  generalize (inst >>> 3) &&& 0x7 = f3 at hf3
  split_ifs
  · exact ⟨_, snprintf_two_regs "beq " ", " ", 0x" _ _ T (by decide) (by decide) (by decide)
      h1 h2 hT⟩
  · exact ⟨_, snprintf_two_regs "bne " ", " ", 0x" _ _ T (by decide) (by decide) (by decide)
      h1 h2 hT⟩
  · exact ⟨_, snprintf_one_reg "bz " ", 0x" _ T (by decide) (by decide) h1 hT⟩
  · exact ⟨_, snprintf_one_reg "bnz " ", 0x" _ T (by decide) (by decide) h1 hT⟩
  · exact ⟨_, snprintf_two_regs "blt " ", " ", 0x" _ _ T (by decide) (by decide) (by decide)
      h1 h2 hT⟩
  · exact ⟨_, snprintf_two_regs "bge " ", " ", 0x" _ _ T (by decide) (by decide) (by decide)
      h1 h2 hT⟩
  · exact ⟨_, snprintf_two_regs "bltu " ", " ", 0x" _ _ T (by decide) (by decide) (by decide)
      h1 h2 hT⟩
  · exact ⟨_, snprintf_two_regs "bgeu " ", " ", 0x" _ _ T (by decide) (by decide) (by decide)
      h1 h2 hT⟩
  · omega

/-- The text of a J-type word ends with the `%04X` rendering of
`pc + offset`. -/
theorem disassemble_J_target (inst pc : Nat) (hJ : inst &&& 0x7 = 5) :
    ∃ head, disassemble inst pc 128 = head ++ fmt04X (toU16 (pc + jumpOffset inst)) := by
  have h1 : (inst >>> 6) &&& 0x7 ≤ 7 := Nat.and_le_right
  have hT := toU16_lt (pc + jumpOffset inst)
  unfold disassemble
  simp only [hJ]
  generalize toU16 (pc + jumpOffset inst) = T at hT
  split_ifs
  · exact ⟨_, snprintf_no_reg "j 0x" T (by decide) hT⟩
  · exact ⟨_, snprintf_one_reg "jal " ", 0x" _ T (by decide) (by decide) h1 hT⟩

/-- Effect of a J-type word on the program counter. -/
theorem executeInstruction_J_pc (fuel inst : Nat) (s : State) (hJ : inst &&& 0x7 = 5) :
    ∃ s', executeInstruction fuel inst s = .ok (1, s') ∧
      s'.pc = toU16 (s.pc + jumpOffset inst) := by
  rw [executeInstruction_J fuel inst s hJ]
  unfold execJ
  simp only [finish, if_true]
  refine ⟨_, rfl, ?_⟩
  rw [State.setPc_pc, Int.add_comm]
  split_ifs <;> rfl

/-- C11: the target that `disassemble` prints for a B-type or J-type word at
`pc` (the `%04X` field ending the text, four characters) is the value that
`executeInstruction` stores in `pc` when started at that `pc` (for a B-type
word, when the branch is taken); it is `pc + offset` modulo `2^16`. -/
theorem targets_agree (fuel br jmp pc : Nat) (s : State) (hpc : s.pc = pc)
    (hB : br &&& 0x7 = 2) (hJ : jmp &&& 0x7 = 5) :
    (∃ head T, disassemble br pc 128 = head ++ fmt04X T ∧ (fmt04X T).length = 4 ∧
      (T : Int) = (pc + branchOffset br) % 65536 ∧
      (takeBranch ((br >>> 3) &&& 0x7) (s.regs ((br >>> 6) &&& 0x7))
          (s.regs ((br >>> 9) &&& 0x7)) = true →
        ∃ s', executeInstruction fuel br s = .ok (1, s') ∧ s'.pc = T)) ∧
    (∃ head T, disassemble jmp pc 128 = head ++ fmt04X T ∧ (fmt04X T).length = 4 ∧
      (T : Int) = (pc + jumpOffset jmp) % 65536 ∧
      ∃ s', executeInstruction fuel jmp s = .ok (1, s') ∧ s'.pc = T) := by
  subst hpc
  constructor
  · obtain ⟨head, hd⟩ := disassemble_B_target br s.pc hB
    refine ⟨head, _, hd, fmt04X_length _ (toU16_lt _), toU16_cast _, fun htake => ?_⟩
    refine ⟨s.setPc (toU16 (s.pc + branchOffset br)), ?_, State.setPc_pc s _⟩
    rw [executeInstruction_B fuel br s hB]
    simp only [execB, htake, if_true, finish]
  · obtain ⟨head, hd⟩ := disassemble_J_target jmp s.pc hJ
    exact ⟨head, _, hd, fmt04X_length _ (toU16_lt _), toU16_cast _,
      executeInstruction_J_pc fuel jmp s hJ⟩

/-- C11 at `beq t0, t0` with offset field 2 (word `0x2002`) at `pc = 2`,
printed and executed target `0x0006`, and at `jal t0` with offset `0x20`
(word `0x8405`) at `pc = 2`, printed and executed target `0x0022`. -/
theorem targets_agree_witness :
    (disassemble 0x2002 2 128 = "beq t0, t0, 0x0006" ∧
      ∃ s', executeInstruction 0 0x2002 atPcTwo = .ok (1, s') ∧ s'.pc = 6) ∧
    (disassemble 0x8405 2 128 = "jal t0, 0x0022" ∧
      ∃ s', executeInstruction 0 0x8405 atPcTwo = .ok (1, s') ∧ s'.pc = 0x22) := by
  obtain ⟨⟨_, T, _, _, hT, hb⟩, ⟨_, U, _, _, hU, hj⟩⟩ :=
    targets_agree 0 0x2002 0x8405 2 atPcTwo rfl (by decide) (by decide)
  have hT6 : T = 6 := by
    have : (T : Int) = 6 := by rw [hT]; decide
    exact_mod_cast this
  have hU22 : U = 0x22 := by
    have : (U : Int) = 0x22 := by rw [hU]; decide
    exact_mod_cast this
  subst hT6 hU22
  exact ⟨⟨by decide, hb (by decide)⟩, ⟨by decide, hj⟩⟩

/-! ## C12: the immediate in the disassembly of U-type words -/

/-- The text of a U-type word ends with the `%04X` rendering of the
disassembler's own immediate, built from a 6-bit high part. -/
theorem disassemble_U_immediate (inst pc : Nat) (hU : inst &&& 0x7 = 6) :
    ∃ head, disassemble inst pc 128 = head ++
      fmt04X (toU16 ((((((inst >>> 10) &&& 0x3F) <<< 6) ||| ((inst >>> 3) &&& 0x7)) <<< 4
        : Nat) : Int)) := by
  have h1 : (inst >>> 6) &&& 0x7 ≤ 7 := Nat.and_le_right
  have hT := toU16_lt ((((((inst >>> 10) &&& 0x3F) <<< 6) ||| ((inst >>> 3) &&& 0x7)) <<< 4
    : Nat) : Int)
  unfold disassemble
  simp only [hU]
  generalize toU16 ((((((inst >>> 10) &&& 0x3F) <<< 6) ||| ((inst >>> 3) &&& 0x7)) <<< 4
    : Nat) : Int) = T at hT
  split_ifs
  · exact ⟨_, snprintf_one_reg "lui " ", 0x" _ T (by decide) (by decide) h1 hT⟩
  · exact ⟨_, snprintf_one_reg "auipc " ", 0x" _ T (by decide) (by decide) h1 hT⟩

/-- The immediate printed for a U-type word is the one the executor uses
only when `f = 0` and bits `[5:3]` are zero. -/
theorem disassembled_immediate_eq_iff (inst : Nat) :
    toU16 ((((((inst >>> 10) &&& 0x3F) <<< 6) ||| ((inst >>> 3) &&& 0x7)) <<< 4 : Nat) : Int)
        = upperImm inst ↔
      ((inst >>> 15) &&& 0x1 = 0 ∧ (inst >>> 3) &&& 0x7 = 0) := by
  have e6 : (inst >>> 10) &&& 0x3F = inst / 1024 % 64 := by
    rw [Nat.shiftRight_eq_div_pow]; exact Nat.and_pow_two_sub_one_eq_mod _ 6
  have e5 : (inst >>> 10) &&& 0x1F = inst / 1024 % 32 := by
    rw [Nat.shiftRight_eq_div_pow]; exact Nat.and_pow_two_sub_one_eq_mod _ 5
  have e3 : (inst >>> 3) &&& 0x7 = inst / 8 % 8 := by
    rw [Nat.shiftRight_eq_div_pow]; exact Nat.and_pow_two_sub_one_eq_mod _ 3
  have e1 : (inst >>> 15) &&& 0x1 = inst / 32768 % 2 := by
    rw [Nat.shiftRight_eq_div_pow]; exact Nat.and_pow_two_sub_one_eq_mod _ 1
  have hlo6 : inst / 8 % 8 < 2 ^ 6 := by omega
  have hlo3 : inst / 8 % 8 < 2 ^ 3 := by omega
  have hD : ((inst / 1024 % 64) <<< 6) ||| (inst / 8 % 8)
      = 64 * (inst / 1024 % 64) + inst / 8 % 8 := by
    rw [Nat.shiftLeft_eq, Nat.mul_comm, Nat.mul_add_lt_is_or hlo6]
  have hE : ((inst / 1024 % 32) <<< 3) ||| (inst / 8 % 8)
      = 8 * (inst / 1024 % 32) + inst / 8 % 8 := by
    rw [Nat.shiftLeft_eq, Nat.mul_comm, Nat.mul_add_lt_is_or hlo3]
  unfold upperImm
  simp only
  rw [e6, e5, e3, e1, hD, hE, toU16_natCast, toU16_natCast, Nat.shiftLeft_eq, Nat.shiftLeft_eq]
  omega

/-- C12 fails at `lui a1` with all immediate bits set (word `0x7FFE`) and at
the `auipc` with the same fields (word `0xFFFE`): the disassembler prints
`0x7C70` resp. `0xFC70`, the executor uses the immediate `0x7F80`. -/
theorem lui_disassembly_immediate_differs :
    disassemble 0x7FFE 0x0010 128 = "lui a1, 0x7C70" ∧
    (∃ s', executeInstruction 0 0x7FFE linkState = .ok (1, s') ∧ s'.regs 7 = 0x7F80) ∧
    disassemble 0xFFFE 0x0010 128 = "auipc a1, 0xFC70" ∧
    (∃ s', executeInstruction 0 0xFFFE linkState = .ok (1, s') ∧ s'.regs 7 = 0x0010 + 0x7F80) :=
  ⟨by decide, ⟨(linkState.setReg 7 0x7F80).setPc 0x12, rfl, rfl⟩, by decide,
    ⟨(linkState.setReg 7 0x7F90).setPc 0x12, rfl, rfl⟩⟩

/-! ## C13: `ecall 5` on a terminated string -/

theorem toU16_succ (a : Nat) : toU16 ((a : Int) + 1) = (a + 1) % 65536 := by
  unfold toU16; omega

/-- The loop of `ecall 5` ends at a zero byte. -/
theorem printString_stop (memory : Nat → Nat) (fuel addr : Nat) (acc : List Nat)
    (h : memory addr = 0) : printString memory (fuel + 1) addr acc = .ok acc := by
  unfold printString
  rw [if_neg (by simp [h])]

/-- The loop of `ecall 5` walks over `n` non-zero bytes starting at `addr`,
emitting them in order; the address after `0xFFFF` is `0`. -/
theorem printString_skip (memory : Nat → Nat) :
    ∀ (n fuel addr : Nat) (acc : List Nat), addr < 65536 → addr + n ≤ 65536 →
      (∀ j, addr ≤ j → j < addr + n → memory j ≠ 0) →
      printString memory (fuel + n) addr acc =
        printString memory fuel ((addr + n) % 65536)
          (acc ++ (List.range' addr n).map memory) := by
  intro n
  induction n with
  | zero =>
    intro fuel addr acc haddr _ _
    simp [Nat.mod_eq_of_lt haddr]
  | succ k ih =>
    intro fuel addr acc haddr hle hne
    have h0 : memory addr ≠ 0 := hne addr (Nat.le_refl _) (by omega)
    rw [show fuel + (k + 1) = (fuel + k) + 1 by omega]
    rw [printString, if_pos h0, toU16_succ]
    by_cases hk : k = 0
    · subst hk
      simp
    · have h1 : addr + 1 < 65536 := by omega
      rw [Nat.mod_eq_of_lt h1, ih fuel (addr + 1) _ h1 (by omega)
        (fun j hj hj' => hne j (by omega) (by omega))]
      rw [List.range'_succ, List.map_cons, List.append_assoc, List.singleton_append,
        show addr + 1 + k = addr + (k + 1) by omega]

theorem State.print_regs (s : State) (b : List Nat) : (s.print b).regs = s.regs := rfl

theorem State.print_memory (s : State) (b : List Nat) : (s.print b).memory = s.memory := rfl

theorem State.print_pc (s : State) (b : List Nat) : (s.print b).pc = s.pc := rfl

theorem State.print_stdout (s : State) (b : List Nat) :
    (s.print b).stdout = s.stdout ++ b := rfl

/-- Effect of `ecall 5` once its loop has ended with the bytes `bytes`. -/
theorem executeInstruction_ecall5 (fuel inst : Nat) (s : State) (bytes : List Nat)
    (hop : inst &&& 0x7 = 7) (hsvc : (inst >>> 6) &&& 0x3FF = 5)
    (hloop : printString s.memory fuel (toU16 (s.regs 6)) [] = .ok bytes) :
    ∃ s', executeInstruction fuel inst s = .ok (1, s') ∧
      s'.stdout = s.stdout ++ bytes ++ [10] ∧
      s'.regs = s.regs ∧ s'.memory = s.memory ∧ s'.pc = (s.pc + 2) % 65536 := by
  refine ⟨((s.print bytes).print (bytesOf "\n")).setPc (toU16 (s.pc + 2)), ?_, ?_, ?_, ?_, ?_⟩
  · rw [executeInstruction_Sys fuel inst s hop]
    simp only [execSys, hsvc, show ¬ ((5 : Nat) = 1) by decide, if_false, if_true, hloop,
      finish]
    rfl
  · rw [State.setPc_stdout, State.print_stdout, State.print_stdout]
    rfl
  · rw [State.setPc_regs, State.print_regs, State.print_regs]
  · rw [State.setPc_memory, State.print_memory, State.print_memory]
  · rw [State.setPc_pc, toU16_pc_add_two]

/-- C13: when `k0` is the least address from `a0` up that holds a zero byte,
`ecall 5` (given fuel for the `k0 - a0 + 1` evaluations of its loop
condition) emits `memory[a0], ..., memory[k0 - 1]` in order and then one
newline, changes no register and no memory byte, advances `pc` by 2 and
returns 1. -/
theorem ecall5_prints_string (fuel inst k0 : Nat) (s : State)
    (hop : inst &&& 0x7 = 7) (hsvc : (inst >>> 6) &&& 0x3FF = 5)
    (hk : s.regs 6 ≤ k0) (hk0 : k0 < 65536) (hzero : s.memory k0 = 0)
    (hmin : ∀ j, s.regs 6 ≤ j → j < k0 → s.memory j ≠ 0)
    (hfuel : k0 - s.regs 6 + 1 ≤ fuel) :
    ∃ s', executeInstruction fuel inst s = .ok (1, s') ∧
      s'.stdout = s.stdout ++ (List.range' (s.regs 6) (k0 - s.regs 6)).map s.memory ++ [10] ∧
      s'.regs = s.regs ∧ s'.memory = s.memory ∧ s'.pc = (s.pc + 2) % 65536 := by
  have ha0 : s.regs 6 < 65536 := by omega
  apply executeInstruction_ecall5 fuel inst s _ hop hsvc
  obtain ⟨f, rfl⟩ : ∃ f, fuel = (f + 1) + (k0 - s.regs 6) := ⟨fuel - (k0 - s.regs 6 + 1), by omega⟩
  rw [toU16_natCast, Nat.mod_eq_of_lt ha0,
    printString_skip s.memory (k0 - s.regs 6) (f + 1) (s.regs 6) [] ha0 (by omega)
      (fun j hj hj' => hmin j hj (by omega)),
    show s.regs 6 + (k0 - s.regs 6) = k0 by omega, Nat.mod_eq_of_lt hk0,
    printString_stop s.memory f k0 _ hzero, List.nil_append]

/-- C13 at the bytes `H`, `i`, NUL at `0x100` with `a0 = 0x100`: `ecall 5`
(word `0x0147`) emits `Hi` and a newline. -/
theorem ecall5_prints_string_witness :
    ∃ s', executeInstruction 3 0x0147 hiState = .ok (1, s') ∧
      s'.stdout = bytesOf "Hi\n" ∧
      s'.regs = hiState.regs ∧ s'.memory = hiState.memory ∧ s'.pc = 2 :=
  ecall5_prints_string 3 0x0147 0x102 hiState (by decide) (by decide) (by decide) (by decide)
    (by decide) (fun j h1 h2 => by
      have h1' : 0x100 ≤ j := h1
      interval_cases j <;> decide) (by decide)

/-! ## C18: `ecall 5` past the end of memory -/

/-- C18 fails on `wrapState`: no address from `a0 = 0xFFFF` up holds a zero
byte, and `ecall 5` (word `0x0147`) goes on at address 0: it emits `A`, `B`
and a newline, not `memory[a0 .. 65535]` and a newline. -/
theorem ecall5_wraps_on_wrapState :
    (∀ k, wrapState.regs 6 ≤ k → k < 65536 → wrapState.memory k ≠ 0) ∧
    ∃ s', executeInstruction 3 0x0147 wrapState = .ok (1, s') ∧
      s'.stdout = [0x41, 0x42, 0x0A] ∧
      s'.stdout ≠ wrapState.stdout ++
        (List.range' (wrapState.regs 6) (65536 - wrapState.regs 6)).map wrapState.memory
          ++ [0x0A] := by
  refine ⟨fun k h1 h2 => ?_, ?_⟩
  · have h1' : 0xFFFF ≤ k := h1
    interval_cases k
    decide
  · refine ⟨((wrapState.print [0x41, 0x42]).print (bytesOf "\n")).setPc 2, rfl, rfl, ?_⟩
    decide

/-- C18 as amended: when no address from `a0` up holds a zero byte and `k0`
is the least address holding one, `ecall 5` (given fuel for the
`65536 - a0 + k0 + 1` evaluations of its loop condition) emits
`memory[a0 .. 65535]`, goes on at address 0 with `memory[0 .. k0 - 1]`, and
then emits one newline; registers and memory are unchanged, `pc` advances by
2 and the result is 1. -/
theorem ecall5_wraps_around (fuel inst k0 : Nat) (s : State)
    (hop : inst &&& 0x7 = 7) (hsvc : (inst >>> 6) &&& 0x3FF = 5)
    (ha0 : s.regs 6 < 65536)
    (hhigh : ∀ j, s.regs 6 ≤ j → j < 65536 → s.memory j ≠ 0)
    (hk : k0 < s.regs 6) (hzero : s.memory k0 = 0)
    (hlow : ∀ j, j < k0 → s.memory j ≠ 0)
    (hfuel : 65536 - s.regs 6 + k0 + 1 ≤ fuel) :
    ∃ s', executeInstruction fuel inst s = .ok (1, s') ∧
      s'.stdout = s.stdout ++
        ((List.range' (s.regs 6) (65536 - s.regs 6)).map s.memory ++
          (List.range' 0 k0).map s.memory) ++ [10] ∧
      s'.regs = s.regs ∧ s'.memory = s.memory ∧ s'.pc = (s.pc + 2) % 65536 := by
  apply executeInstruction_ecall5 fuel inst s _ hop hsvc
  obtain ⟨f, rfl⟩ : ∃ f, fuel = ((f + 1) + k0) + (65536 - s.regs 6) :=
    ⟨fuel - (65536 - s.regs 6 + k0 + 1), by omega⟩
  rw [toU16_natCast, Nat.mod_eq_of_lt ha0,
    printString_skip s.memory (65536 - s.regs 6) ((f + 1) + k0) (s.regs 6) [] ha0 (by omega)
      (fun j hj hj' => hhigh j hj (by omega)),
    show s.regs 6 + (65536 - s.regs 6) = 65536 by omega, Nat.mod_self,
    printString_skip s.memory k0 (f + 1) 0 _ (by decide) (by omega)
      (fun j _ hj' => hlow j (by omega)),
    Nat.zero_add, Nat.mod_eq_of_lt (by omega),
    printString_stop s.memory f k0 _ hzero, List.nil_append]

/-- C18 as amended, at `wrapState`: `A` from address `0xFFFF`, then `B` from
address `0`, then a newline. -/
theorem ecall5_wraps_around_witness :
    ∃ s', executeInstruction 3 0x0147 wrapState = .ok (1, s') ∧
      s'.stdout = [0x41, 0x42, 0x0A] ∧
      s'.regs = wrapState.regs ∧ s'.memory = wrapState.memory ∧ s'.pc = 2 :=
  ecall5_wraps_around 3 0x0147 1 wrapState (by decide) (by decide) (by decide)
    (fun j h1 h2 => by
      have h1' : 0xFFFF ≤ j := h1
      interval_cases j
      decide)
    (by decide) (by decide)
    (fun j h => by
      interval_cases j
      decide)
    (by decide)

/-! ## C14: `li` and `ecall 1` -/

/-- The I-type immediate is the 7-bit field sign-extended from bit 6. -/
theorem signExtend7_eq (imm7 : Nat) (h : imm7 ≤ 0x7F) :
    signExtend7 imm7 = (if imm7 < 64 then (imm7 : Int) else (imm7 : Int) - 128) ∧
    toU16 (signExtend7 imm7) = (if imm7 < 64 then imm7 else imm7 + 0xFF80) := by
  interval_cases imm7 <;> decide

/-- Effect of `li`. -/
theorem executeInstruction_li (fuel inst : Nat) (s : State)
    (hI : inst &&& 0x7 = 1) (hI3 : (inst >>> 3) &&& 0x7 = 7) :
    executeInstruction fuel inst s = .ok (1,
      (s.setReg ((inst >>> 6) &&& 0x7) (toU16 (signExtend7 ((inst >>> 9) &&& 0x7F)))).setPc
        (toU16 (s.pc + 2))) := by
  rw [executeInstruction_I fuel inst s hI]
  simp only [execI, hI3, show ¬ ((7 : Nat) = 0) by decide, show ¬ ((7 : Nat) = 1) by decide,
    show ¬ ((7 : Nat) = 2) by decide, show ¬ ((7 : Nat) = 3) by decide,
    show ¬ ((7 : Nat) = 4) by decide, show ¬ ((7 : Nat) = 5) by decide,
    show ¬ ((7 : Nat) = 6) by decide, if_false, if_true, finish]
  rfl

/-- Effect of `ecall 1`. -/
theorem executeInstruction_ecall1 (fuel inst : Nat) (s : State)
    (hop : inst &&& 0x7 = 7) (hsvc : (inst >>> 6) &&& 0x3FF = 1) :
    executeInstruction fuel inst s = .ok (1,
      (s.print (bytesOf (fmtD (toI16 (s.regs 6)) ++ "\n"))).setPc (toU16 (s.pc + 2))) := by
  rw [executeInstruction_Sys fuel inst s hop]
  simp only [execSys, hsvc, if_true, finish]
  rfl

/-- C14: `li` (I-type, `funct3 = 7`) sets `rd`, whichever register it is, to
the 7-bit immediate sign-extended from bit 6 to 16 bits; `ecall 1` emits the
decimal text of `a0` read as a signed 16-bit integer, followed by a newline,
and changes neither registers nor memory. -/
theorem li_and_ecall1 (fuel li ec : Nat) (s t : State)
    (hli : li &&& 0x7 = 1) (hli3 : (li >>> 3) &&& 0x7 = 7)
    (hec : ec &&& 0x7 = 7) (hsvc : (ec >>> 6) &&& 0x3FF = 1)
    (ha0 : t.regs 6 < 65536) :
    (∃ s', executeInstruction fuel li s = .ok (1, s') ∧
      s'.regs ((li >>> 6) &&& 0x7) =
        (if (li >>> 9) &&& 0x7F < 64 then (li >>> 9) &&& 0x7F
          else ((li >>> 9) &&& 0x7F) + 0xFF80) ∧
      (∀ j, j ≠ (li >>> 6) &&& 0x7 → s'.regs j = s.regs j)) ∧
    (∃ t', executeInstruction fuel ec t = .ok (1, t') ∧
      t'.stdout = t.stdout ++ bytesOf (toString (signed16 (t.regs 6)) ++ "\n") ∧
      t'.regs = t.regs ∧ t'.memory = t.memory) := by
  constructor
  · refine ⟨_, executeInstruction_li fuel li s hli hli3, ?_, ?_⟩
    · simp only [State.setReg, State.setPc, if_true]
      exact (signExtend7_eq _ Nat.and_le_right).2
    · intro j hj
      simp only [State.setReg, State.setPc, if_neg hj]
  · refine ⟨_, executeInstruction_ecall1 fuel ec t hec hsvc, ?_, ?_, ?_⟩
    · rw [State.setPc_stdout, State.print_stdout, toI16_eq_signed16 _ ha0]
      rfl
    · rw [State.setPc_regs, State.print_regs]
    · rw [State.setPc_memory, State.print_memory]

/-- The driver on the image of Scenario B retires `li a0, 42` and `ecall 1`,
the guest output is the line `42`, and it stops on the zero-instruction check
with `pc = 4`. -/
theorem scenarioB_run (fuel : Nat) :
    ∃ s, driverLoop (fuel + 3) (fuel + 3) 0 (startState scenarioB) = .ok (2, s) ∧
      s.pc = 4 ∧ s.regs 6 = 42 ∧
      s.stdout = bytesOf ("Loaded 4 bytes into memory\n" ++
        "0x0000: 55B9 li a0, 42\n" ++ "0x0002: 0047 ecall 1\n" ++ "42\n") ∧
      s.stderr = bytesOf "Encountered zero instruction at 0x0004\n" ∧
      main (fuel + 3) scenarioB = .ok (0, printRegisterState s) :=
  ⟨_, rfl, rfl, rfl, by decide, by decide, rfl⟩

/-- C14 at `li a0, 42` (word `0x55B9`) in the start state, at `li t0, -1`
(word `0xFE39`, writing register 0), at `ecall 1` (word `0x0047`) with
`a0 = 42`, which emits the line `42`, and on the image of Scenario B, whose
guest output is the line `42`. -/
theorem li_and_ecall1_witness :
    ((∃ s', executeInstruction 0 0x55B9 initialState = .ok (1, s') ∧ s'.regs 6 = 42 ∧
        (∀ j, j ≠ 6 → s'.regs j = initialState.regs j)) ∧
      (∃ t', executeInstruction 0 0x0047 afterLi42 = .ok (1, t') ∧
        t'.stdout = bytesOf "42\n" ∧ t'.regs = afterLi42.regs ∧
        t'.memory = afterLi42.memory)) ∧
    (∃ s', executeInstruction 0 0xFE39 initialState = .ok (1, s') ∧ s'.regs 0 = 0xFFFF ∧
        (∀ j, j ≠ 0 → s'.regs j = initialState.regs j)) ∧
    (∃ s, driverLoop 3 3 0 (startState scenarioB) = .ok (2, s) ∧
      s.pc = 4 ∧ s.regs 6 = 42 ∧
      s.stdout = bytesOf ("Loaded 4 bytes into memory\n" ++
        "0x0000: 55B9 li a0, 42\n" ++ "0x0002: 0047 ecall 1\n" ++ "42\n") ∧
      s.stderr = bytesOf "Encountered zero instruction at 0x0004\n" ∧
      main 3 scenarioB = .ok (0, printRegisterState s)) :=
  ⟨li_and_ecall1 0 0x55B9 0x0047 initialState afterLi42 (by decide) (by decide) (by decide)
      (by decide) (by decide),
    (li_and_ecall1 0 0xFE39 0x0047 initialState afterLi42 (by decide) (by decide) (by decide)
      (by decide) (by decide)).1,
    scenarioB_run 0⟩

/-! ## C15: Scenario A -/

/-- C15 fails: the words of Scenario A, as fetched from the image, are not
`addi a0, <imm>` and `ecall 1`. The word `0xC1F1` has `funct3 = 6` and
`rd = 7` and is disassembled as `xori a1, -32`; the word `0x0041` has opcode
1, not 7, and is disassembled as `addi ra, 0`. -/
theorem scenarioA_is_not_addi_ecall :
    toU16 (((startState scenarioA).memory 0 ||| ((startState scenarioA).memory 1 <<< 8) : Nat)
      : Int) = 0xC1F1 ∧
    toU16 (((startState scenarioA).memory 2 ||| ((startState scenarioA).memory 3 <<< 8) : Nat)
      : Int) = 0x0041 ∧
    disassemble 0xC1F1 0 128 = "xori a1, -32" ∧
    ¬ beginsWith "addi a0, " (disassemble 0xC1F1 0 128) ∧
    disassemble 0x0041 2 128 = "addi ra, 0" ∧
    disassemble 0x0041 2 128 ≠ "ecall 1" := by
  decide

/-- C15 as amended: the driver on the image of Scenario A retires exactly two
instructions, traced as `xori a1, -32` and `addi ra, 0`, emits no guest
output, leaves `a1 = 0xFFE0` and every other register 0, and stops on the
zero-instruction check with `pc = 4`; `main` then prints the registers and
returns 0. -/
theorem scenarioA_run (fuel : Nat) :
    ∃ s, driverLoop (fuel + 3) (fuel + 3) 0 (startState scenarioA) = .ok (2, s) ∧
      s.pc = 4 ∧
      s.stdout = bytesOf ("Loaded 4 bytes into memory\n" ++
        "0x0000: C1F1 xori a1, -32\n" ++ "0x0002: 0041 addi ra, 0\n") ∧
      s.stderr = bytesOf "Encountered zero instruction at 0x0004\n" ∧
      s.regs 7 = 0xFFE0 ∧ (∀ i, i ≠ 7 → s.regs i = 0) ∧
      main (fuel + 3) scenarioA = .ok (0, printRegisterState s) := by
  refine ⟨_, rfl, rfl, by decide, by decide, rfl, ?_, rfl⟩
  intro i hi
  show (if i = 1 then _ else if i = 7 then _ else 0) = 0
  by_cases h1 : i = 1
  · rw [if_pos h1]
    decide
  · rw [if_neg h1, if_neg hi]

/-! ## C16: the instruction cap on `j 0` -/

/-- The trace line of `j 0` fetched at address 0. -/
theorem jSelf_line :
    bytesOf ("0x" ++ fmt04X 0 ++ ": " ++ fmt04X 5 ++ " " ++ disassemble 5 0 128 ++ "\n") =
      bytesOf "0x0000: 0005 j 0x0000\n" := by
  decide

/-- The instruction `j 0` executed at `pc = 0` leaves `pc = 0` and changes
nothing else. -/
theorem executeInstruction_jSelf (fuel : Nat) (s : State) (hpc : s.pc = 0) :
    executeInstruction fuel 0x0005 s = .ok (1, s.setPc 0) := by
  rw [executeInstruction_J fuel 0x0005 s (by decide)]
  unfold execJ
  simp only [finish, if_true]
  rw [if_neg (by decide)]
  have h : toU16 (jumpOffset 0x0005 + s.pc) = 0 := by
    rw [hpc]
    decide
  rw [h]

/-- The driver loop on `j 0` at address 0, started with `k` instructions left
below the cap: it executes `k` times, each time printing the same trace line,
and stops with the counter at the cap. -/
theorem driverLoop_jSelf (fuel : Nat) :
    ∀ (k extra count : Nat) (s : State), s.pc = 0 → s.memory 0 = 5 → s.memory 1 = 0 →
      count + k = MAX_INSTRUCTIONS →
      ∃ s', driverLoop fuel (k + 1 + extra) count s = .ok (MAX_INSTRUCTIONS, s') ∧
        s'.pc = 0 ∧ s'.regs = s.regs ∧ s'.memory = s.memory ∧ s'.stderr = s.stderr ∧
        s'.stdout = s.stdout ++
          (List.replicate k (bytesOf "0x0000: 0005 j 0x0000\n")).flatten := by
  intro k
  induction k with
  | zero =>
    intro extra count s _ _ _ hcount
    refine ⟨s, ?_, ‹_›, rfl, rfl, rfl, by simp⟩
    rw [show 0 + 1 + extra = extra + 1 by omega]
    unfold driverLoop
    rw [if_neg (by omega)]
    rw [show count = MAX_INSTRUCTIONS by omega]
  | succ j ih =>
    intro extra count s hpc h0 h1 hcount
    have hlt : count < MAX_INSTRUCTIONS := by omega
    have hinst : toU16 ((s.memory s.pc ||| (s.memory (s.pc + 1) <<< 8) : Nat) : Int) = 5 := by
      rw [hpc, h0, h1]
      decide
    obtain ⟨s', hrun, hpc', hregs, hmem, herr, hout⟩ :=
      ih extra (count + 1)
        ((s.print (bytesOf "0x0000: 0005 j 0x0000\n")).setPc 0)
        rfl h0 h1 (by omega)
    refine ⟨s', ?_, hpc', hregs, hmem, herr, ?_⟩
    · rw [show j + 1 + 1 + extra = (j + 1 + extra) + 1 by omega]
      unfold driverLoop
      rw [if_pos ⟨by rw [hpc]; decide, hlt⟩, if_neg (by rw [hpc]; decide)]
      simp only [hinst, show ¬ ((5 : Nat) = 0) by decide, if_false]
      rw [hpc, jSelf_line, executeInstruction_jSelf fuel _ (by rw [State.print_pc]; exact hpc)]
      simp only [show ¬ ((1 : Int) = 0) by decide, show ¬ ((1 : Int) < 0) by decide, if_false]
      exact hrun
    · rw [hout, State.setPc_stdout, State.print_stdout, List.replicate_succ, List.flatten_cons,
        List.append_assoc]

/-- C16: on an image whose word at address 0 is `j 0` (`0x0005`), the driver
loop, given fuel for `MAX_INSTRUCTIONS + 1` evaluations of its condition,
executes `j 0` exactly `MAX_INSTRUCTIONS` times (one trace line `0x0000: 0005
j 0x0000` per execution, each execution leaving `pc = 0` and the registers as
they were), ends with `instruction_count = MAX_INSTRUCTIONS`, `pc = 0` and all
registers 0, and `main` then reports the cap on standard error and returns
0. -/
theorem scenarioF_run (fuel : Nat) (image : List Nat)
    (h0 : (startState image).memory 0 = 0x05) (h1 : (startState image).memory 1 = 0x00)
    (hfuel : MAX_INSTRUCTIONS + 1 ≤ fuel) :
    (∀ t : State, t.pc = 0 → ∃ t', executeInstruction fuel 0x0005 t = .ok (1, t') ∧
      t'.pc = 0 ∧ t'.regs = t.regs ∧ t'.memory = t.memory) ∧
    (∃ s', driverLoop fuel fuel 0 (startState image) = .ok (MAX_INSTRUCTIONS, s') ∧
      s'.pc = 0 ∧ (∀ i, s'.regs i = 0) ∧
      s'.stdout = (startState image).stdout ++
        (List.replicate MAX_INSTRUCTIONS (bytesOf "0x0000: 0005 j 0x0000\n")).flatten ∧
      main fuel image = .ok (0, printRegisterState (s'.eprint (bytesOf
        "Simulation terminated: Exceeded maximum instruction count (100000)\n")))) := by
  constructor
  · intro t ht
    exact ⟨t.setPc 0, executeInstruction_jSelf fuel t ht, rfl, State.setPc_regs t 0,
      State.setPc_memory t 0⟩
  · obtain ⟨extra, rfl⟩ : ∃ extra, fuel = MAX_INSTRUCTIONS + 1 + extra :=
      ⟨fuel - (MAX_INSTRUCTIONS + 1), by omega⟩
    obtain ⟨s', hrun, hpc, hregs, _, _, hout⟩ :=
      driverLoop_jSelf (MAX_INSTRUCTIONS + 1 + extra) MAX_INSTRUCTIONS extra 0
        (startState image) rfl h0 h1 (by omega)
    refine ⟨s', hrun, hpc, fun i => by rw [hregs]; rfl, hout, ?_⟩
    unfold main
    unfold startState at hrun
    simp only [hrun, ge_iff_le, le_refl, if_true]
    rfl

/-- C16 at the two-byte image `05 00`. -/
theorem scenarioF_run_witness :
    (∀ t : State, t.pc = 0 → ∃ t', executeInstruction 100001 0x0005 t = .ok (1, t') ∧
      t'.pc = 0 ∧ t'.regs = t.regs ∧ t'.memory = t.memory) ∧
    (∃ s', driverLoop 100001 100001 0 (startState scenarioF) = .ok (MAX_INSTRUCTIONS, s') ∧
      s'.pc = 0 ∧ (∀ i, s'.regs i = 0) ∧
      s'.stdout = (startState scenarioF).stdout ++
        (List.replicate MAX_INSTRUCTIONS (bytesOf "0x0000: 0005 j 0x0000\n")).flatten ∧
      main 100001 scenarioF = .ok (0, printRegisterState (s'.eprint (bytesOf
        "Simulation terminated: Exceeded maximum instruction count (100000)\n")))) :=
  scenarioF_run 100001 scenarioF (by decide) (by decide) (by decide)

/-! ## C17: indices of the memory accesses -/

theorem finish_outOfBounds {o : Outcome Flow} (h : finish o = .outOfBounds) :
    o = .outOfBounds := by
  cases o with
  | ok f => cases f <;> cases h
  | outOfBounds => rfl
  | outOfFuel => cases h

/-- The loop of `ecall 5` indexes `memory` with a `uint16_t` only. -/
theorem printString_in_bounds (memory : Nat → Nat) :
    ∀ (fuel addr : Nat) (acc : List Nat), printString memory fuel addr acc ≠ .outOfBounds := by
  intro fuel
  induction fuel with
  | zero =>
    intro addr acc h
    cases h
  | succ n ih =>
    intro addr acc h
    unfold printString at h
    split_ifs at h
    exact ih _ _ h

theorem execR_in_bounds (inst : Nat) (s : State) : execR inst s ≠ .outOfBounds := by
  intro h
  unfold execR at h
  simp only at h
  split_ifs at h

theorem execI_in_bounds (inst : Nat) (s : State) : execI inst s ≠ .outOfBounds := by
  intro h
  unfold execI at h
  simp only at h
  split_ifs at h

theorem execB_in_bounds (inst : Nat) (s : State) : execB inst s ≠ .outOfBounds := by
  intro h
  unfold execB at h
  simp only at h
  split_ifs at h

theorem execJ_in_bounds (inst : Nat) (s : State) : execJ inst s ≠ .outOfBounds := by
  intro h
  unfold execJ at h
  cases h

theorem execU_in_bounds (inst : Nat) (s : State) : execU inst s ≠ .outOfBounds := by
  intro h
  unfold execU at h
  simp only at h
  split_ifs at h

theorem execSys_in_bounds (fuel inst : Nat) (s : State) :
    execSys fuel inst s ≠ .outOfBounds := by
  intro h
  unfold execSys at h
  simp only at h
  split_ifs at h
  split at h
  · cases h
  · rename_i hp
    exact absurd hp (printString_in_bounds _ _ _ _)
  · cases h

/-- The S-type case leaves `memory` only in `sw` at effective address
`0xFFFF`. -/
theorem execS_outOfBounds (inst : Nat) (s : State) (h : execS inst s = .outOfBounds) :
    (inst >>> 3) &&& 0x7 = 1 ∧
      toU16 (s.regs ((inst >>> 6) &&& 0x7) + ((inst >>> 12) &&& 0xF) : Nat) = 0xFFFF := by
  have hlt := toU16_lt (s.regs ((inst >>> 6) &&& 0x7) + ((inst >>> 12) &&& 0xF) : Nat)
  unfold execS at h
  simp only at h
  split_ifs at h with h0 h1 hin
  unfold MEM_SIZE at hin
  exact ⟨h1, by omega⟩

/-- The L-type case leaves `memory` only in `lw` at effective address
`0xFFFF`. -/
theorem execL_outOfBounds (inst : Nat) (s : State) (h : execL inst s = .outOfBounds) :
    (inst >>> 3) &&& 0x7 = 1 ∧
      toU16 (s.regs ((inst >>> 9) &&& 0x7) + ((inst >>> 12) &&& 0xF) : Nat) = 0xFFFF := by
  have hlt := toU16_lt (s.regs ((inst >>> 9) &&& 0x7) + ((inst >>> 12) &&& 0xF) : Nat)
  unfold execL at h
  simp only at h
  split_ifs at h with h0 h1 hin
  unfold MEM_SIZE at hin
  exact ⟨h1, by omega⟩

/-- The accesses of `executeInstruction` that leave `memory`: exactly `sw` and
`lw` at effective address `0xFFFF`, through the index `addr + 1`. Every other
index is a `uint16_t` value. -/
theorem outOfBounds_iff (fuel inst : Nat) (s : State) :
    executeInstruction fuel inst s = .outOfBounds ↔
      (inst &&& 0x7 = 3 ∧ (inst >>> 3) &&& 0x7 = 1 ∧
        toU16 (s.regs ((inst >>> 6) &&& 0x7) + ((inst >>> 12) &&& 0xF) : Nat) = 0xFFFF) ∨
      (inst &&& 0x7 = 4 ∧ (inst >>> 3) &&& 0x7 = 1 ∧
        toU16 (s.regs ((inst >>> 9) &&& 0x7) + ((inst >>> 12) &&& 0xF) : Nat) = 0xFFFF) := by
  constructor
  · intro h
    rcases executeInstruction_cases fuel inst s with
      ⟨hop, he⟩ | ⟨hop, he⟩ | ⟨hop, he⟩ | ⟨hop, he⟩ | ⟨hop, he⟩ | ⟨hop, he⟩ | ⟨hop, he⟩ | ⟨hop, he⟩
    · exact absurd (finish_outOfBounds (he ▸ h)) (execR_in_bounds inst s)
    · exact absurd (finish_outOfBounds (he ▸ h)) (execI_in_bounds inst s)
    · exact absurd (finish_outOfBounds (he ▸ h)) (execB_in_bounds inst s)
    · exact Or.inl ⟨hop, execS_outOfBounds inst s (finish_outOfBounds (he ▸ h))⟩
    · exact Or.inr ⟨hop, execL_outOfBounds inst s (finish_outOfBounds (he ▸ h))⟩
    · exact absurd (finish_outOfBounds (he ▸ h)) (execJ_in_bounds inst s)
    · exact absurd (finish_outOfBounds (he ▸ h)) (execU_in_bounds inst s)
    · exact absurd (finish_outOfBounds (he ▸ h)) (execSys_in_bounds fuel inst s)
  · rintro (⟨hop, h3, haddr⟩ | ⟨hop, h3, haddr⟩)
    · rw [executeInstruction_S fuel inst s hop]
      simp only [execS, h3, show ¬ ((1 : Nat) = 0) by decide, if_false, if_true, haddr]
      rfl
    · rw [executeInstruction_L fuel inst s hop]
      simp only [execL, h3, show ¬ ((1 : Nat) = 0) by decide, if_false, if_true, haddr]
      rfl

/-- C17 fails at effective address `0xFFFF` reached as `0xFFF0 + 15`: both
`sw ra, 15(t0)` (word `0xF20B`) and `lw ra, 15(t0)` (word `0xF04C`) index
`memory[65536]`; the address is not wrapped to `0x0000`. -/
theorem word_access_indexes_past_memory :
    executeInstruction 0 0xF20B nearTopState = .outOfBounds ∧
    executeInstruction 0 0xF04C nearTopState = .outOfBounds :=
  ⟨rfl, rfl⟩

/-! ## C19: `slti` and `sltui` -/

/-- C19: `sltui` (I-type, `funct3 = 2`) sets `rd` to 1 when the unsigned value
of `rd` is below the sign-extended immediate read as an unsigned 16-bit value
(`imm7` for `imm7 < 64`, else `imm7 + 0xFF80`) and to 0 otherwise; `slti`
(`funct3 = 1`) sets `rd` to 1 exactly when the signed value of `rd` is below
the immediate `simm`, which lies in `-64 .. 63`. -/
theorem slti_sltui_result (fuel slti sltui : Nat) (s : State)
    (hregs : ∀ i, s.regs i < 65536)
    (hslti : slti &&& 0x7 = 1) (hslti3 : (slti >>> 3) &&& 0x7 = 1)
    (hsltui : sltui &&& 0x7 = 1) (hsltui3 : (sltui >>> 3) &&& 0x7 = 2) :
    (∃ s', executeInstruction fuel sltui s = .ok (1, s') ∧
      s'.regs ((sltui >>> 6) &&& 0x7) =
        (if s.regs ((sltui >>> 6) &&& 0x7) <
            (if (sltui >>> 9) &&& 0x7F < 64 then (sltui >>> 9) &&& 0x7F
              else ((sltui >>> 9) &&& 0x7F) + 0xFF80)
          then 1 else 0)) ∧
    (∃ s' simm, executeInstruction fuel slti s = .ok (1, s') ∧
      simm = (if (slti >>> 9) &&& 0x7F < 64 then (((slti >>> 9) &&& 0x7F : Nat) : Int)
        else (((slti >>> 9) &&& 0x7F : Nat) : Int) - 128) ∧
      -64 ≤ simm ∧ simm ≤ 63 ∧
      s'.regs ((slti >>> 6) &&& 0x7) =
        (if signed16 (s.regs ((slti >>> 6) &&& 0x7)) < simm then 1 else 0)) := by
  have n20 : ¬ ((2 : Nat) = 0) := by decide
  have n21 : ¬ ((2 : Nat) = 1) := by decide
  have n10 : ¬ ((1 : Nat) = 0) := by decide
  constructor
  · refine ⟨(s.setReg ((sltui >>> 6) &&& 0x7)
      (if s.regs ((sltui >>> 6) &&& 0x7) < toU16 (signExtend7 ((sltui >>> 9) &&& 0x7F))
        then 1 else 0)).setPc (toU16 (s.pc + 2)), ?_, ?_⟩
    · rw [executeInstruction_I fuel sltui s hsltui]
      simp only [execI, hsltui3, n20, n21, if_false, if_true, finish]
      rfl
    · simp only [State.setReg, State.setPc, if_true]
      rw [(signExtend7_eq _ Nat.and_le_right).2]
  · have him : (slti >>> 9) &&& 0x7F ≤ 0x7F := Nat.and_le_right
    refine ⟨(s.setReg ((slti >>> 6) &&& 0x7)
      (if toI16 (s.regs ((slti >>> 6) &&& 0x7)) < signExtend7 ((slti >>> 9) &&& 0x7F)
        then 1 else 0)).setPc (toU16 (s.pc + 2)), signExtend7 ((slti >>> 9) &&& 0x7F),
      ?_, (signExtend7_eq _ him).1, ?_, ?_, ?_⟩
    · rw [executeInstruction_I fuel slti s hslti]
      simp only [execI, hslti3, n10, if_false, if_true, finish]
      rfl
    · rw [(signExtend7_eq _ him).1]
      split_ifs <;> omega
    · rw [(signExtend7_eq _ him).1]
      split_ifs <;> omega
    · simp only [State.setReg, State.setPc, if_true]
      rw [toI16_eq_signed16 _ (hregs _)]

theorem negativeState_regs (i : Nat) : negativeState.regs i < 65536 := by
  unfold negativeState
  simp only
  split_ifs <;> omega

/-- C19 at `t0 = 0xFFF0` (`-16`): `sltui t0, -64` (word `0x8011`, comparand
`0xFFC0`) gives 0 and `slti t0, -1` (word `0xFE09`) gives 1. -/
theorem slti_sltui_result_witness :
    (∃ s', executeInstruction 0 0x8011 negativeState = .ok (1, s') ∧ s'.regs 0 = 0) ∧
    (∃ s', executeInstruction 0 0xFE09 negativeState = .ok (1, s') ∧ s'.regs 0 = 1) := by
  obtain ⟨hu, s', simm, hs, hsimm, _, _, hr⟩ :=
    slti_sltui_result 0 0xFE09 0x8011 negativeState negativeState_regs
      (by decide) (by decide) (by decide) (by decide)
  refine ⟨hu, s', hs, ?_⟩
  show s'.regs (0xFE09 >>> 6 &&& 0x7) = 1
  rw [hr, hsimm]
  decide

/-! ## C20: loads -/

/-- The value stored by `lb` for a byte `b`. -/
theorem signExtendByte_eq (b : Nat) (hb : b < 256) :
    toU16 (toI16 (toI8 (b : Int))) = (if b < 128 then b else b + 0xFF00) := by
  unfold toU16 toI16 toI8
  split_ifs <;> omega

/-- The value stored by `lw` for the bytes `lo`, `hi`. -/
theorem bytePair_value (lo hi : Nat) (hlo : lo < 256) (hhi : hi < 256) :
    toU16 ((lo ||| (hi <<< 8) : Nat) : Int) = lo + 256 * hi := by
  have h : lo < 2 ^ 8 := hlo
  rw [toU16_natCast, Nat.lor_comm, Nat.shiftLeft_eq, Nat.mul_comm, ← Nat.mul_add_lt_is_or h]
  omega

/-- Effect of `lb`. -/
theorem executeInstruction_lb (fuel inst : Nat) (s : State)
    (hL : inst &&& 0x7 = 4) (hL3 : (inst >>> 3) &&& 0x7 = 0) :
    executeInstruction fuel inst s = .ok (1,
      (s.setReg ((inst >>> 6) &&& 0x7)
        (toU16 (toI16 (toI8 (s.memory
          (toU16 (s.regs ((inst >>> 9) &&& 0x7) + ((inst >>> 12) &&& 0xF) : Nat))))))).setPc
        (toU16 (s.pc + 2))) := by
  rw [executeInstruction_L fuel inst s hL]
  simp only [execL, hL3, if_true, finish]
  rfl

/-- C20: with `a = (regs[bits 11:9] + bits[15:12]) mod 2^16` and memory
holding bytes, `lb` sets the register of bits `[8:6]` to `memory[a]`
sign-extended from bit 7, `lbu` sets it to `memory[a]`, and `lw` with
`a < 0xFFFF` sets it to `memory[a] + 256 * memory[a + 1]`. -/
theorem load_results (fuel lb lbu lw : Nat) (s : State)
    (hmem : ∀ a, s.memory a < 256)
    (hlb : lb &&& 0x7 = 4) (hlb3 : (lb >>> 3) &&& 0x7 = 0)
    (hlbu : lbu &&& 0x7 = 4) (hlbu3 : (lbu >>> 3) &&& 0x7 = 4)
    (hlw : lw &&& 0x7 = 4) (hlw3 : (lw >>> 3) &&& 0x7 = 1)
    (haddr : (s.regs ((lw >>> 9) &&& 0x7) + ((lw >>> 12) &&& 0xF)) % 65536 < 0xFFFF) :
    (∃ s', executeInstruction fuel lb s = .ok (1, s') ∧
      s'.regs ((lb >>> 6) &&& 0x7) =
        (if s.memory ((s.regs ((lb >>> 9) &&& 0x7) + ((lb >>> 12) &&& 0xF)) % 65536) < 128
          then s.memory ((s.regs ((lb >>> 9) &&& 0x7) + ((lb >>> 12) &&& 0xF)) % 65536)
          else s.memory ((s.regs ((lb >>> 9) &&& 0x7) + ((lb >>> 12) &&& 0xF)) % 65536)
            + 0xFF00)) ∧
    (∃ s', executeInstruction fuel lbu s = .ok (1, s') ∧
      s'.regs ((lbu >>> 6) &&& 0x7) =
        s.memory ((s.regs ((lbu >>> 9) &&& 0x7) + ((lbu >>> 12) &&& 0xF)) % 65536)) ∧
    (∃ s', executeInstruction fuel lw s = .ok (1, s') ∧
      s'.regs ((lw >>> 6) &&& 0x7) =
        s.memory ((s.regs ((lw >>> 9) &&& 0x7) + ((lw >>> 12) &&& 0xF)) % 65536) +
          256 * s.memory ((s.regs ((lw >>> 9) &&& 0x7) + ((lw >>> 12) &&& 0xF)) % 65536 + 1))
    := by
  refine ⟨⟨_, executeInstruction_lb fuel lb s hlb hlb3, ?_⟩,
    ⟨_, executeInstruction_lbu fuel lbu s hlbu hlbu3, ?_⟩, ?_⟩
  · simp only [State.setReg, State.setPc, if_true]
    rw [signExtendByte_eq _ (hmem _), toU16_natCast]
  · simp only [State.setReg, State.setPc, if_true]
    rw [toU16_natCast]
  · have hin : toU16 (s.regs ((lw >>> 9) &&& 0x7) + ((lw >>> 12) &&& 0xF) : Nat) + 1
        < MEM_SIZE := by
      rw [toU16_natCast]
      unfold MEM_SIZE
      omega
    refine ⟨_, executeInstruction_lw fuel lw s hlw hlw3 hin, ?_⟩
    simp only [State.setReg, State.setPc, if_true]
    rw [bytePair_value _ _ (hmem _) (hmem _), toU16_natCast]

theorem loadState_memory (a : Nat) : loadState.memory a < 256 := by
  unfold loadState
  simp only
  split_ifs <;> omega

/-- C20 at the bytes `0x80`, `0x12` at `0x100` with `a0 = 0x100`:
`lb ra, 0(a0)` (word `0x0C44`) gives `0xFF80`, `lbu ra, 0(a0)` (word `0x0C64`)
gives `0x0080`, `lw ra, 0(a0)` (word `0x0C4C`) gives `0x1280`. -/
theorem load_results_witness :
    (∃ s', executeInstruction 0 0x0C44 loadState = .ok (1, s') ∧ s'.regs 1 = 0xFF80) ∧
    (∃ s', executeInstruction 0 0x0C64 loadState = .ok (1, s') ∧ s'.regs 1 = 0x0080) ∧
    (∃ s', executeInstruction 0 0x0C4C loadState = .ok (1, s') ∧ s'.regs 1 = 0x1280) :=
  load_results 0 0x0C44 0x0C64 0x0C4C loadState loadState_memory
    (by decide) (by decide) (by decide) (by decide) (by decide) (by decide) (by decide)

/-! ## C21: the J-type offset is never negative -/

/-- A value below `2^10` has bit 10 clear. -/
theorem and_0x400_of_lt (x : Nat) (h : x < 1024) : x &&& 0x400 = 0 := by
  apply Nat.eq_of_testBit_eq
  intro i
  rw [Nat.testBit_and, Nat.zero_testBit, show (0x400 : Nat) = 2 ^ 10 by decide,
    Nat.testBit_two_pow]
  by_cases hi : 10 = i
  · subst hi
    rw [Nat.testBit_lt_two_pow (by omega)]
    rfl
  · simp [hi]

/-- The J-type offset is `2 * ((bits[14:9] << 3) | bits[5:3])`, at most 1022,
with bit 10 clear: the sign extension `if (offset & 0x400) offset |= 0xF800`
never fires. -/
theorem jumpOffset_eq (inst : Nat) :
    jumpOffset inst =
      ((2 * ((((inst >>> 9) &&& 0x3F) <<< 3) ||| ((inst >>> 3) &&& 0x7)) : Nat) : Int) ∧
    2 * ((((inst >>> 9) &&& 0x3F) <<< 3) ||| ((inst >>> 3) &&& 0x7)) ≤ 1022 ∧
    (2 * ((((inst >>> 9) &&& 0x3F) <<< 3) ||| ((inst >>> 3) &&& 0x7))) &&& 0x400 = 0 := by
  have hhi : (inst >>> 9) &&& 0x3F ≤ 0x3F := Nat.and_le_right
  have hlo : (inst >>> 3) &&& 0x7 ≤ 0x7 := Nat.and_le_right
  have h1 : ((inst >>> 9) &&& 0x3F) <<< 3 < 2 ^ 9 := by
    rw [Nat.shiftLeft_eq]; omega
  have h2 : (inst >>> 3) &&& 0x7 < 2 ^ 9 := by omega
  have hv := Nat.or_lt_two_pow h1 h2
  unfold jumpOffset
  simp only
  generalize ((inst >>> 9) &&& 0x3F) <<< 3 ||| ((inst >>> 3) &&& 0x7) = v at hv ⊢
  have hbit : (2 * v) &&& 0x400 = 0 := and_0x400_of_lt _ (by omega)
  have hoff : toI16 ((v <<< 1 : Nat) : Int) = ((2 * v : Nat) : Int) := by
    rw [Nat.shiftLeft_eq]
    unfold toI16
    split_ifs <;> omega
  have hu : toU16 ((2 * v : Nat) : Int) = 2 * v := by
    rw [toU16_natCast]
    exact Nat.mod_eq_of_lt (by omega)
  refine ⟨?_, by omega, hbit⟩
  rw [hoff, hu, if_neg (by rw [hbit]; exact fun h => h rfl)]

/-- C21: for every J-type word the byte offset built by `disassemble` and by
`executeInstruction` is `2 * ((bits[14:9] << 3) | bits[5:3])`, a value in
`0 .. 1022` with bit 10 clear, so the sign extension never fires; the printed
target and the new `pc` are `pc + offset` modulo `2^16`, and `pc` gets lower
only by wrapping past `0xFFFF`. -/
theorem jump_offset_never_negative (fuel inst : Nat) (s : State) (hJ : inst &&& 0x7 = 5) :
    ∃ off : Nat,
      off = 2 * ((((inst >>> 9) &&& 0x3F) <<< 3) ||| ((inst >>> 3) &&& 0x7)) ∧
      jumpOffset inst = (off : Int) ∧ off ≤ 1022 ∧ off &&& 0x400 = 0 ∧
      (∃ head, disassemble inst s.pc 128 = head ++ fmt04X ((s.pc + off) % 65536)) ∧
      ∃ s', executeInstruction fuel inst s = .ok (1, s') ∧
        s'.pc = (s.pc + off) % 65536 ∧
        (s'.pc < s.pc → 65536 ≤ s.pc + off) := by
  obtain ⟨heq, hle, hbit⟩ := jumpOffset_eq inst
  have hT : toU16 (s.pc + jumpOffset inst) =
      (s.pc + 2 * ((((inst >>> 9) &&& 0x3F) <<< 3) ||| ((inst >>> 3) &&& 0x7))) % 65536 := by
    rw [heq, ← Nat.cast_add, toU16_natCast]
  refine ⟨_, rfl, heq, hle, hbit, ?_, ?_⟩
  · obtain ⟨head, hd⟩ := disassemble_J_target inst s.pc hJ
    exact ⟨head, by rw [hd, hT]⟩
  · obtain ⟨s', hs, hpc⟩ := executeInstruction_J_pc fuel inst s hJ
    refine ⟨s', hs, by rw [hpc, hT], fun hlt => ?_⟩
    rw [hpc, hT] at hlt
    omega

/-- C21 at the J-type word with every offset bit set (`0x7E3D`, offset 1022)
at `pc = 0x0010`: the printed and the new `pc` are `0x040E`. -/
theorem jump_offset_never_negative_witness :
    jumpOffset 0x7E3D = 1022 ∧ disassemble 0x7E3D 0x0010 128 = "j 0x040E" ∧
    ∃ s', executeInstruction 0 0x7E3D linkState = .ok (1, s') ∧ s'.pc = 0x040E := by
  obtain ⟨off, hoff, hj, _, _, _, s', hs, hpc, _⟩ :=
    jump_offset_never_negative 0 0x7E3D linkState (by decide)
  have h1022 : off = 1022 := by rw [hoff]; decide
  subst h1022
  exact ⟨hj, by decide, s', hs, hpc⟩

/-! ## C22: what an instruction may change -/

theorem State.setReg_regs_ne (s : State) (i v j : Nat) (h : j ≠ i) :
    (s.setReg i v).regs j = s.regs j := by
  show (if j = i then v else s.regs j) = s.regs j
  rw [if_neg h]

theorem State.setReg_memory (s : State) (i v : Nat) : (s.setReg i v).memory = s.memory := rfl

theorem State.setMem_regs (s : State) (a v : Nat) : (s.setMem a v).regs = s.regs := rfl

theorem State.setMem_memory_ne (s : State) (a v j : Nat) (h : j ≠ a) :
    (s.setMem a v).memory j = s.memory j := by
  show (if j = a then v else s.memory j) = s.memory j
  rw [if_neg h]

/-- The statements after the `switch` touch neither `regs` nor `memory`. -/
theorem finish_frame {o : Outcome Flow} {c : Int} {s' : State} (h : finish o = .ok (c, s')) :
    ∃ t, ((∃ u, o = .ok (.brk t u)) ∨ o = .ok (.ret c t)) ∧
      s'.regs = t.regs ∧ s'.memory = t.memory := by
  cases o with
  | ok f =>
    cases f with
    | brk t u =>
      simp only [finish, Outcome.ok.injEq, Prod.mk.injEq] at h
      refine ⟨t, Or.inl ⟨u, rfl⟩, ?_⟩
      rw [← h.2]
      cases u
      · exact ⟨rfl, rfl⟩
      · exact ⟨rfl, rfl⟩
    | ret c0 t =>
      simp only [finish, Outcome.ok.injEq, Prod.mk.injEq] at h
      rw [h.1, h.2]
      exact ⟨s', Or.inr rfl, rfl, rfl⟩
  | outOfBounds => simp [finish] at h
  | outOfFuel => simp [finish] at h

/-- The R-type case writes at most `regs[rd_rs1]`. -/
theorem execR_frame (inst : Nat) (s t : State) (u : Bool) (h : execR inst s = .ok (.brk t u)) :
    (∀ j, j ≠ (inst >>> 6) &&& 0x7 → t.regs j = s.regs j) ∧ t.memory = s.memory := by
  unfold execR at h
  simp only at h
  split_ifs at h <;> cases h <;>
    first
    | exact ⟨fun j hj => State.setReg_regs_ne _ _ _ j hj, rfl⟩
    | exact ⟨fun _ _ => rfl, rfl⟩

/-- The I-type case writes at most `regs[rd_rs1]`. -/
theorem execI_frame (inst : Nat) (s t : State) (u : Bool) (h : execI inst s = .ok (.brk t u)) :
    (∀ j, j ≠ (inst >>> 6) &&& 0x7 → t.regs j = s.regs j) ∧ t.memory = s.memory := by
  unfold execI at h
  simp only at h
  split_ifs at h <;> cases h <;>
    first
    | exact ⟨fun j hj => State.setReg_regs_ne _ _ _ j hj, rfl⟩
    | exact ⟨fun _ _ => rfl, rfl⟩

/-- The B-type case writes no register and no memory byte. -/
theorem execB_frame (inst : Nat) (s t : State) (u : Bool) (h : execB inst s = .ok (.brk t u)) :
    t.regs = s.regs ∧ t.memory = s.memory := by
  unfold execB at h
  simp only at h
  split_ifs at h <;> cases h
  · exact ⟨State.setPc_regs _ _, State.setPc_memory _ _⟩
  · exact ⟨rfl, rfl⟩

/-- The S-type case writes no register; `sb` writes the byte at the effective
address, `sw` that byte and the next one, the remaining sub-encodings nothing. -/
theorem execS_frame (inst : Nat) (s t : State) (u : Bool) (h : execS inst s = .ok (.brk t u)) :
    t.regs = s.regs ∧
    ((inst >>> 3) &&& 0x7 = 0 → ∀ a,
      a ≠ toU16 (s.regs ((inst >>> 6) &&& 0x7) + ((inst >>> 12) &&& 0xF) : Nat) →
      t.memory a = s.memory a) ∧
    ((inst >>> 3) &&& 0x7 = 1 → ∀ a,
      a ≠ toU16 (s.regs ((inst >>> 6) &&& 0x7) + ((inst >>> 12) &&& 0xF) : Nat) →
      a ≠ toU16 (s.regs ((inst >>> 6) &&& 0x7) + ((inst >>> 12) &&& 0xF) : Nat) + 1 →
      t.memory a = s.memory a) ∧
    ((inst >>> 3) &&& 0x7 ≠ 0 → (inst >>> 3) &&& 0x7 ≠ 1 → t.memory = s.memory) := by
  unfold execS at h
  simp only at h
  split_ifs at h with h0 h1 hin
  · cases h
    refine ⟨rfl, fun _ a ha => State.setMem_memory_ne _ _ _ a ha, fun h1 => ?_, fun h => ?_⟩
    · rw [h0] at h1; exact absurd h1 (by decide)
    · exact absurd h0 h
  · cases h
    refine ⟨rfl, fun h => absurd h h0, fun _ a ha ha1 => ?_, fun _ h => absurd h1 h⟩
    rw [State.setMem_memory_ne _ _ _ a ha1, State.setMem_memory_ne _ _ _ a ha]
  · cases h
    exact ⟨rfl, fun h => absurd h h0, fun h => absurd h h1, fun _ _ => rfl⟩

/-- The L-type case writes at most `regs[rd]`. -/
theorem execL_frame (inst : Nat) (s t : State) (u : Bool) (h : execL inst s = .ok (.brk t u)) :
    (∀ j, j ≠ (inst >>> 6) &&& 0x7 → t.regs j = s.regs j) ∧ t.memory = s.memory := by
  unfold execL at h
  simp only at h
  split_ifs at h <;> cases h <;>
    first
    | exact ⟨fun j hj => State.setReg_regs_ne _ _ _ j hj, rfl⟩
    | exact ⟨fun _ _ => rfl, rfl⟩

/-- The J-type case writes at most `regs[rd]`. -/
theorem execJ_frame (inst : Nat) (s t : State) (u : Bool) (h : execJ inst s = .ok (.brk t u)) :
    (∀ j, j ≠ (inst >>> 6) &&& 0x7 → t.regs j = s.regs j) ∧ t.memory = s.memory := by
  unfold execJ at h
  simp only at h
  cases h
  rw [State.setPc_regs, State.setPc_memory]
  split_ifs
  · exact ⟨fun j hj => State.setReg_regs_ne _ _ _ j hj, State.setReg_memory _ _ _⟩
  · exact ⟨fun _ _ => rfl, rfl⟩

theorem execJ_no_ret (inst : Nat) (s t : State) (c : Int) :
    execJ inst s ≠ .ok (.ret c t) := by
  intro h
  unfold execJ at h
  simp only at h
  cases h

/-- The U-type case writes at most `regs[rd]`. -/
theorem execU_frame (inst : Nat) (s t : State) (u : Bool) (h : execU inst s = .ok (.brk t u)) :
    (∀ j, j ≠ (inst >>> 6) &&& 0x7 → t.regs j = s.regs j) ∧ t.memory = s.memory := by
  unfold execU at h
  simp only at h
  split_ifs at h <;> cases h <;>
    exact ⟨fun j hj => State.setReg_regs_ne _ _ _ j hj, rfl⟩

/-- The system case writes no register and no memory byte. -/
theorem execSys_frame (fuel inst : Nat) (s t : State) (u : Bool)
    (h : execSys fuel inst s = .ok (.brk t u)) :
    t.regs = s.regs ∧ t.memory = s.memory := by
  unfold execSys at h
  simp only at h
  split_ifs at h
  · cases h
    exact ⟨rfl, rfl⟩
  · split at h
    · cases h
      exact ⟨rfl, rfl⟩
    · cases h
    · cases h
  · cases h
  · cases h
    exact ⟨rfl, rfl⟩

/-- What a returning call of `executeInstruction` may change: among the
registers only the one indexed by bits `[8:6]`; in `memory` only the byte at
the effective address for `sb`, that byte and the next one for `sw`, and
nothing for every other word; B-type and system words change no register and
no memory byte. -/
theorem executeInstruction_frame (fuel inst : Nat) (s s' : State) (c : Int)
    (h : executeInstruction fuel inst s = .ok (c, s')) :
    (∀ j, j ≠ (inst >>> 6) &&& 0x7 → s'.regs j = s.regs j) ∧
    (inst &&& 0x7 ≠ 3 → s'.memory = s.memory) ∧
    (inst &&& 0x7 = 3 → (inst >>> 3) &&& 0x7 = 0 → ∀ a,
      a ≠ toU16 (s.regs ((inst >>> 6) &&& 0x7) + ((inst >>> 12) &&& 0xF) : Nat) →
      s'.memory a = s.memory a) ∧
    (inst &&& 0x7 = 3 → (inst >>> 3) &&& 0x7 = 1 → ∀ a,
      a ≠ toU16 (s.regs ((inst >>> 6) &&& 0x7) + ((inst >>> 12) &&& 0xF) : Nat) →
      a ≠ toU16 (s.regs ((inst >>> 6) &&& 0x7) + ((inst >>> 12) &&& 0xF) : Nat) + 1 →
      s'.memory a = s.memory a) ∧
    (inst &&& 0x7 = 3 → (inst >>> 3) &&& 0x7 ≠ 0 → (inst >>> 3) &&& 0x7 ≠ 1 →
      s'.memory = s.memory) ∧
    (inst &&& 0x7 = 2 ∨ inst &&& 0x7 = 7 → s'.regs = s.regs ∧ s'.memory = s.memory) := by
  rcases executeInstruction_cases fuel inst s with
    ⟨hop, he⟩ | ⟨hop, he⟩ | ⟨hop, he⟩ | ⟨hop, he⟩ | ⟨hop, he⟩ | ⟨hop, he⟩ | ⟨hop, he⟩ | ⟨hop, he⟩
  · rw [he] at h
    obtain ⟨t, ht, hr, hm⟩ := finish_frame h
    rcases ht with ⟨u, ht⟩ | ht
    · obtain ⟨fr, fm⟩ := execR_frame inst s t u ht
      rw [hr, hm, fm]
      refine ⟨fr, fun _ => rfl, ?_, ?_, ?_, ?_⟩ <;> intro h3 <;> omega
    · exact absurd ht (execR_no_ret inst s t c)
  · rw [he] at h
    obtain ⟨t, ht, hr, hm⟩ := finish_frame h
    rcases ht with ⟨u, ht⟩ | ht
    · obtain ⟨fr, fm⟩ := execI_frame inst s t u ht
      rw [hr, hm, fm]
      refine ⟨fr, fun _ => rfl, ?_, ?_, ?_, ?_⟩ <;> intro h3 <;> omega
    · exact absurd ht (execI_no_ret inst s t c)
  · rw [he] at h
    obtain ⟨t, ht, hr, hm⟩ := finish_frame h
    rcases ht with ⟨u, ht⟩ | ht
    · obtain ⟨fr, fm⟩ := execB_frame inst s t u ht
      rw [hr, hm, fm, fr]
      refine ⟨fun _ _ => rfl, fun _ => rfl, ?_, ?_, ?_, fun _ => ⟨rfl, rfl⟩⟩ <;>
        intro h3 <;> omega
    · exact absurd ht (execB_no_ret inst s t c)
  · rw [he] at h
    obtain ⟨t, ht, hr, hm⟩ := finish_frame h
    rcases ht with ⟨u, ht⟩ | ht
    · obtain ⟨fr, f0, f1, f2⟩ := execS_frame inst s t u ht
      rw [hr, hm, fr]
      refine ⟨fun _ _ => rfl, fun h3 => absurd hop h3, fun _ => f0, fun _ => f1, fun _ => f2,
        ?_⟩
      intro h3
      omega
    · exact absurd ht (execS_no_ret inst s t c)
  · rw [he] at h
    obtain ⟨t, ht, hr, hm⟩ := finish_frame h
    rcases ht with ⟨u, ht⟩ | ht
    · obtain ⟨fr, fm⟩ := execL_frame inst s t u ht
      rw [hr, hm, fm]
      refine ⟨fr, fun _ => rfl, ?_, ?_, ?_, ?_⟩ <;> intro h3 <;> omega
    · exact absurd ht (execL_no_ret inst s t c)
  · rw [he] at h
    obtain ⟨t, ht, hr, hm⟩ := finish_frame h
    rcases ht with ⟨u, ht⟩ | ht
    · obtain ⟨fr, fm⟩ := execJ_frame inst s t u ht
      rw [hr, hm, fm]
      refine ⟨fr, fun _ => rfl, ?_, ?_, ?_, ?_⟩ <;> intro h3 <;> omega
    · exact absurd ht (execJ_no_ret inst s t c)
  · rw [he] at h
    obtain ⟨t, ht, hr, hm⟩ := finish_frame h
    rcases ht with ⟨u, ht⟩ | ht
    · obtain ⟨fr, fm⟩ := execU_frame inst s t u ht
      rw [hr, hm, fm]
      refine ⟨fr, fun _ => rfl, ?_, ?_, ?_, ?_⟩ <;> intro h3 <;> omega
    · exact absurd ht (execU_no_ret inst s t c)
  · rw [he] at h
    obtain ⟨t, ht, hr, hm⟩ := finish_frame h
    rcases ht with ⟨u, ht⟩ | ht
    · obtain ⟨fr, fm⟩ := execSys_frame fuel inst s t u ht
      rw [hr, hm, fm, fr]
      refine ⟨fun _ _ => rfl, fun _ => rfl, ?_, ?_, ?_, fun _ => ⟨rfl, rfl⟩⟩ <;>
        intro h3 <;> omega
    · obtain ⟨_, hts, _⟩ := execSys_ret fuel inst s t c ht
      rw [hr, hm, hts]
      refine ⟨fun _ _ => rfl, fun _ => rfl, ?_, ?_, ?_, fun _ => ⟨rfl, rfl⟩⟩ <;>
        intro h3 <;> omega

/-- The frame of `sw a0, 1(sp)` (word `0x1C8B`) with `sp = 0x1002`: the call
returns, every register is kept, and only the bytes at `0x1003` and `0x1004`
can differ. -/
theorem executeInstruction_frame_sw_example :
    ∃ s', executeInstruction 0 0x1C8B linkState = .ok (1, s') ∧
      (∀ j, j ≠ 2 → s'.regs j = linkState.regs j) ∧
      (∀ a, a ≠ 0x1003 → a ≠ 0x1004 → s'.memory a = linkState.memory a) := by
  have hs := executeInstruction_sw 0 0x1C8B linkState (by decide) (by decide) (by decide)
  have hf := executeInstruction_frame 0 0x1C8B linkState _ 1 hs
  exact ⟨_, hs, hf.1, hf.2.2.2.1 (by decide) (by decide)⟩

/-- C22 fails at `sw a0, 1(sp)` (word `0x1C8B`) with `sp = 0xFFFE`: the
effective address is `0xFFFF`, and the second byte of the store is written to
`memory[65536]`, outside the array, so the bytes that differ afterwards are not
confined to `memory`. -/
theorem sw_writes_past_memory (fuel : Nat) :
    toU16 (stackTopState.regs ((0x1C8B >>> 6) &&& 0x7) + ((0x1C8B >>> 12) &&& 0xF) : Nat)
      = 0xFFFF ∧
    executeInstruction fuel 0x1C8B stackTopState = .outOfBounds :=
  ⟨by decide, rfl⟩

end Z16
